import Mathlib

/-!
# Verification of the Format Resolution & Streaming Download Orchestrator

A shallow embedding, in Lean 4, of the core service logic of the
`youtube-video-downloader` backend (`app/services/yt_dlp_service.py`,
`app/services/download_tasks.py`, `app/models/video.py`,
`app/core/config.py`), together with theorems settling the testable
properties stated in the specification.

Python integers are modelled as `Int`/`Nat`, Python floats as `Rat`
(the arithmetic the properties speak about is exact), fallible code as
`Except`/`Option`, and the mutable `DownloadTask` records as explicit
state passing.  Library calls made by the code (`str.strip`,
`urllib.parse.urlparse`, `ipaddress.ip_address`, `re` patterns,
`cachetools.TTLCache`) are modelled faithfully for the (ASCII) inputs
the service handles.
-/

namespace YtDlp

/-- The domain error taxonomy of `app/services/errors.py`; each carries its
human-readable message.  Every constructor corresponds to one exception
class (the stable code is determined by the constructor). -/
inductive Err where
  | invalidUrl (message : String)
  | unsupportedPlatform (message : String)
  | videoNotFound (message : String)
  | formatNotAvailable (message : String)
  | ytdlpFailed (message : String)
  deriving Repr, DecidableEq

/-- Python `str.strip()` whitespace set (ASCII): space, tab, LF, CR,
vertical tab, form feed. -/
def pyIsSpace (c : Char) : Bool :=
  c = ' ' || c = '\t' || c = '\n' || c = '\x0d' || c = '\x0b' || c = '\x0c'

/-- Python `str.strip()` on a character list. -/
def pyStripList (l : List Char) : List Char :=
  (((l.dropWhile pyIsSpace).reverse).dropWhile pyIsSpace).reverse

/-- Python `str.strip()`. -/
def pyStrip (s : String) : String :=
  ⟨pyStripList s.data⟩

/-- Python `str.lower()` restricted to ASCII (all inputs the service
validates against are ASCII). -/
def pyLower (s : String) : String :=
  ⟨s.data.map Char.toLower⟩

/-- Is `needle` a contiguous chunk of the second list? -/
def hasChunk (needle : List Char) : List Char → Bool
  | [] => needle.isEmpty
  | c :: rest => needle.isPrefixOf (c :: rest) || hasChunk needle rest

/-- `needle in haystack` for Python strings: substring containment. -/
def pyContains (haystack needle : String) : Bool :=
  hasChunk needle.data haystack.data

/-- Split on a separator chunk; the fuel (instantiated with the list
length) only makes the recursion structural. -/
def splitChunksAux (sep : List Char) : Nat → List Char → List (List Char)
  | _, [] => [[]]
  | 0, l => [l]
  | fuel + 1, c :: rest =>
    if sep.isPrefixOf (c :: rest) ∧ ¬ sep.isEmpty then
      [] :: splitChunksAux sep fuel ((c :: rest).drop sep.length)
    else
      match splitChunksAux sep fuel rest with
      | [] => [[c]]
      | g :: gs => (c :: g) :: gs

/-- Python `s.split(sep)` for a non-empty separator (also the behaviour
of `str.split` the service relies on: leftmost, non-overlapping). -/
def pySplit (s sep : String) : List String :=
  (splitChunksAux sep.data s.data.length s.data).map (fun g => (⟨g⟩ : String))

/-- Python `s.startswith(".")`. -/
def startsWithDot (s : String) : Bool :=
  match s.data with
  | [] => false
  | c :: _ => c = '.'

/-- The character class of `FORMAT_ID_PATTERN = ^[a-zA-Z0-9+\[\]<>=^:/\-_.]+$`. -/
def formatIdChar (c : Char) : Bool :=
  c.isAlpha || c.isDigit || c = '+' || c = '[' || c = ']' || c = '<' ||
  c = '>' || c = '=' || c = '^' || c = ':' || c = '/' || c = '-' ||
  c = '_' || c = '.'

/-- Truthiness of Python `FORMAT_ID_PATTERN.match(s)`.  Python's `$`
matches at the end of the string *or just before a single trailing
newline*, so `"a\n"` matches even though `'\n'` is outside the class. -/
def formatIdMatch (s : String) : Bool :=
  (!s.data.isEmpty && s.data.all formatIdChar) ||
  (decide (2 ≤ s.data.length) && s.data.getLast? == some '\n' &&
    s.data.dropLast.all formatIdChar)

/-- The configuration fields of `app/core/config.py` that the verified
operations consult, with the declared defaults. -/
structure Settings where
  ALLOWED_URL_SCHEMES : String := "http,https"
  BLOCK_PRIVATE_NETWORKS : Bool := true
  YTDLP_FORMATS_CACHE_TTL_SECONDS : Int := 600
  YTDLP_FORMATS_CACHE_MAXSIZE : Int := 128
  deriving Repr, DecidableEq

/-- `settings.allowed_schemes_list`: split on commas, strip, drop empties,
lowercase. -/
def Settings.allowedSchemesList (st : Settings) : List String :=
  (((pySplit st.ALLOWED_URL_SCHEMES ",").map pyStrip).filter (· ≠ "")).map pyLower

/-! ## Model of `urllib.parse.urlparse` (scheme and hostname extraction)

Faithful to CPython for the ASCII inputs the URL gate handles: the
parser first removes any tab/CR/LF characters, splits off a scheme when
the text before the first `:` is a letter followed by letters, digits,
`+`, `-` or `.`, takes the network location after `//` up to the first
`/`, `?` or `#`, and rejects mismatched IPv6 brackets.  `hostname`
drops userinfo before the last `@`, takes the bracketed host or the
part before the first `:`, lowercases it, and is `None` when empty. -/

/-- CPython `urlsplit` removes `\t`, `\r` and `\n` anywhere in the URL. -/
def urlSanitize (s : String) : String :=
  ⟨s.data.filter (fun c => c ≠ '\t' && c ≠ '\x0d' && c ≠ '\n')⟩

/-- Characters allowed inside a URL scheme after the leading letter. -/
def schemeChar (c : Char) : Bool :=
  c.isAlphanum || c = '+' || c = '-' || c = '.'

/-- Split `scheme : rest`; the scheme comes out lowercased, as in CPython.
Returns scheme `""` and the whole input when there is no valid scheme. -/
def splitScheme (s : String) : String × String :=
  let l := s.data
  match l.findIdx? (· = ':') with
  | some i =>
    if 0 < i ∧ (l.headD ' ').isAlpha ∧ (l.take i).all schemeChar then
      (pyLower ⟨l.take i⟩, ⟨l.drop (i + 1)⟩)
    else ("", s)
  | none => ("", s)

/-- The result of `urlparse` restricted to the fields the URL gate reads. -/
structure ParsedUrl where
  scheme : String
  netloc : String
  deriving Repr, DecidableEq

/-- `urlparse(url)`; `none` models the `ValueError` raised on mismatched
IPv6 brackets in the network location. -/
def pyUrlparse (url : String) : Option ParsedUrl :=
  let u := urlSanitize url
  let (scheme, rest) := splitScheme u
  let restL := rest.data
  let netloc : List Char :=
    if restL.take 2 = ['/', '/'] then
      (restL.drop 2).takeWhile (fun c => c ≠ '/' && c ≠ '?' && c ≠ '#')
    else []
  if (netloc.contains '[' && !netloc.contains ']') ||
      (netloc.contains ']' && !netloc.contains '[') then
    none
  else
    some ⟨scheme, ⟨netloc⟩⟩

/-- `parsed.hostname`: strip userinfo before the last `@`; take the
bracketed host when `[` is present, else the part before the first `:`;
lowercase; `none` when empty. -/
def hostnameOf (netloc : String) : Option String :=
  let hostinfo := ((netloc.data.reverse).takeWhile (· ≠ '@')).reverse
  let host : List Char :=
    if hostinfo.contains '[' then
      ((hostinfo.dropWhile (· ≠ '[')).drop 1).takeWhile (· ≠ ']')
    else
      hostinfo.takeWhile (· ≠ ':')
  if host.isEmpty then none else some (pyLower ⟨host⟩)

/-! ## Model of `ipaddress.ip_address` and its privacy classification

Covers dotted-quad IPv4 (leading zeros rejected, as in CPython ≥ 3.9.5)
and RFC-4291 IPv6 text (`::` compression, optional embedded IPv4 tail);
zone identifiers (`%zone`) are not modelled.  The private / loopback /
link-local network tables are CPython's. -/

/-- One IPv4 octet: 1–3 digits, no leading zero, value ≤ 255. -/
def parseIPv4Octet (s : List Char) : Option Nat :=
  if s.isEmpty || 3 < s.length || !s.all Char.isDigit then none
  else if 1 < s.length && s.headD '0' = '0' then none
  else
    let v := s.foldl (fun a c => a * 10 + (c.toNat - '0'.toNat)) 0
    if v ≤ 255 then some v else none

/-- A dotted-quad IPv4 literal as a 32-bit value. -/
def parseIPv4 (s : String) : Option Nat :=
  match (pySplit s ".").map (fun p => parseIPv4Octet p.data) with
  | [some a, some b, some c, some d] =>
      some (((a * 256 + b) * 256 + c) * 256 + d)
  | _ => none

/-- Hexadecimal digit value. -/
def hexVal (c : Char) : Nat :=
  if c.isDigit then c.toNat - '0'.toNat
  else if 'a' ≤ c ∧ c ≤ 'f' then c.toNat - 'a'.toNat + 10
  else c.toNat - 'A'.toNat + 10

/-- One IPv6 hextet: 1–4 hex digits. -/
def parseHextet (s : List Char) : Option Nat :=
  if s.isEmpty || 4 < s.length ||
      !s.all (fun c => c.isDigit || ('a' ≤ c && c ≤ 'f') || ('A' ≤ c && c ≤ 'F')) then
    none
  else some (s.foldl (fun a c => a * 16 + hexVal c) 0)

/-- Parse colon-separated hextet groups; only in the final position may a
group be an embedded dotted-quad IPv4 (contributing two 16-bit groups). -/
def parseTailGroups : List String → Option (List Nat)
  | [] => some []
  | [p] =>
    match parseHextet p.data with
    | some v => some [v]
    | none =>
      match parseIPv4 p with
      | some v4 => some [v4 / 65536, v4 % 65536]
      | none => none
  | p :: rest => do
    let v ← parseHextet p.data
    let vs ← parseTailGroups rest
    pure (v :: vs)

/-- Parse colon-separated hextet groups with no embedded IPv4 allowed
(the part of an address left of `::`). -/
def parseHexGroups (ps : List String) : Option (List Nat) :=
  ps.mapM (fun p => parseHextet p.data)

/-- Split a piece of an IPv6 literal on single colons (empty piece lists
for the empty string, as on either side of `::`). -/
def colonPieces (s : String) : List String :=
  if s = "" then [] else pySplit s ":"

/-- Combine 16-bit groups into a 128-bit value. -/
def combineGroups (gs : List Nat) : Nat :=
  gs.foldl (fun a g => a * 65536 + g) 0

/-- An IPv6 literal as a 128-bit value. -/
def parseIPv6 (s : String) : Option Nat :=
  match pySplit s "::" with
  | [whole] => do
    let gs ← parseTailGroups (colonPieces whole)
    if gs.length = 8 then pure (combineGroups gs) else none
  | [left, right] => do
    let lg ← parseHexGroups (colonPieces left)
    let rg ← parseTailGroups (colonPieces right)
    if lg.length + rg.length ≤ 7 then
      pure (combineGroups (lg ++ List.replicate (8 - lg.length - rg.length) 0 ++ rg))
    else none
  | _ => none

/-- Result of `ipaddress.ip_address`: an IPv4 or IPv6 address value. -/
inductive IpAddr where
  | v4 (value : Nat)
  | v6 (value : Nat)
  deriving Repr, DecidableEq

/-- `ipaddress.ip_address(s)`: IPv4 first, then IPv6; `none` models the
`ValueError` on anything else. -/
def pyIpAddress (s : String) : Option IpAddr :=
  match parseIPv4 s with
  | some v => some (.v4 v)
  | none => (parseIPv6 s).map .v6

/-- Shorthand for a 32-bit IPv4 network base address. -/
def ip4 (a b c d : Nat) : Nat := ((a * 256 + b) * 256 + c) * 256 + d

/-- Membership of a 32-bit address in a CIDR network. -/
def inNet4 (addr base pfx : Nat) : Bool :=
  addr / 2 ^ (32 - pfx) = base / 2 ^ (32 - pfx)

/-- Membership of a 128-bit address in a CIDR network. -/
def inNet6 (addr base pfx : Nat) : Bool :=
  addr / 2 ^ (128 - pfx) = base / 2 ^ (128 - pfx)

/-- CPython `IPv4Address.is_private` network table. -/
def ipv4Private (v : Nat) : Bool :=
  inNet4 v (ip4 0 0 0 0) 8 || inNet4 v (ip4 10 0 0 0) 8 ||
  inNet4 v (ip4 127 0 0 0) 8 || inNet4 v (ip4 169 254 0 0) 16 ||
  inNet4 v (ip4 172 16 0 0) 12 || inNet4 v (ip4 192 0 0 0) 29 ||
  inNet4 v (ip4 192 0 0 170) 31 || inNet4 v (ip4 192 0 2 0) 24 ||
  inNet4 v (ip4 192 168 0 0) 16 || inNet4 v (ip4 198 18 0 0) 15 ||
  inNet4 v (ip4 198 51 100 0) 24 || inNet4 v (ip4 203 0 113 0) 24 ||
  inNet4 v (ip4 240 0 0 0) 4 || v = ip4 255 255 255 255

/-- CPython `IPv6Address.is_private` network table (the bases written as
128-bit values: `::ffff:0:0/96`, `100::/64`, `2001::/23`, `2001:2::/48`,
`2001:db8::/32`, `2001:10::/28`, `fc00::/7`, `fe80::/10`). -/
def ipv6Private (v : Nat) : Bool :=
  v = 1 || v = 0 ||
  inNet6 v (0xffff * 2 ^ 32) 96 ||
  inNet6 v (0x0100 * 2 ^ 112) 64 ||
  inNet6 v (0x2001 * 2 ^ 112) 23 ||
  inNet6 v (0x2001 * 2 ^ 112 + 0x0002 * 2 ^ 96) 48 ||
  inNet6 v (0x2001 * 2 ^ 112 + 0x0db8 * 2 ^ 96) 32 ||
  inNet6 v (0x2001 * 2 ^ 112 + 0x0010 * 2 ^ 96) 28 ||
  inNet6 v (0xfc00 * 2 ^ 112) 7 ||
  inNet6 v (0xfe80 * 2 ^ 112) 10

/-- `ip.is_private or ip.is_loopback or ip.is_link_local`, the condition
the URL gate blocks on (loopback `127/8`, `::1` and link-local
`169.254/16`, `fe80::/10` are already inside the private tables). -/
def ipBlocked : IpAddr → Bool
  | .v4 v => ipv4Private v || inNet4 v (ip4 127 0 0 0) 8 || inNet4 v (ip4 169 254 0 0) 16
  | .v6 v => ipv6Private v || v = 1 || inNet6 v (0xfe80 * 2 ^ 112) 10

/-- The fixed localhost alias set `BLOCKED_HOSTNAMES`. -/
def blockedHostnames : List String := ["localhost", "127.0.0.1", "0.0.0.0", "::1"]

/-- `YtDlpService.normalize_url`: trim, parse, check the scheme
allow-list, require a hostname, and (when private-network blocking is
on) reject blocked IP literals and localhost aliases; return the
trimmed original URL on success. -/
def normalizeUrl (st : Settings) (url : String) : Except Err String :=
  let url := pyStrip url
  match pyUrlparse url with
  | none => .error (.invalidUrl "Malformed URL")
  | some parsed =>
    if ¬ (st.allowedSchemesList.contains (pyLower parsed.scheme)) then
      .error (.invalidUrl ("URL scheme not allowed. Allowed schemes: " ++
        String.intercalate ", " st.allowedSchemesList))
    else
      match hostnameOf parsed.netloc with
      | none => .error (.invalidUrl "URL must have a valid hostname")
      | some host =>
        if st.BLOCK_PRIVATE_NETWORKS then
          match pyIpAddress host with
          | some ip =>
            if ipBlocked ip then
              .error (.invalidUrl "Private network URLs are not allowed")
            else if blockedHostnames.contains (pyLower host) then
              .error (.invalidUrl "Localhost URLs are not allowed")
            else .ok url
          | none =>
            if blockedHostnames.contains (pyLower host) then
              .error (.invalidUrl "Localhost URLs are not allowed")
            else .ok url
        else .ok url

/-! ## Format catalog builder -/

/-- The `Format` pydantic model (`app/models/video.py`). -/
structure Format where
  id : String
  quality_label : String
  mime_type : String
  filesize_bytes : Option Int := none
  is_audio_only : Bool := false
  is_video_only : Bool := false
  deriving Repr, DecidableEq

/-- A raw yt-dlp per-format record, typed with the fields the service
reads (`none` = key absent or JSON `null`). -/
structure RawFormat where
  format_id : Option String := none
  id : Option String := none
  height : Option Int := none
  abr : Option Rat := none
  format_note : Option String := none
  quality : Option String := none
  ext : Option String := none
  vcodec : Option String := none
  acodec : Option String := none
  filesize : Option Int := none
  filesize_approx : Option Int := none
  deriving Repr

/-- Python truthiness filter for an optional string (`""` is falsy). -/
def strTruthy : Option String → Option String
  | some s => if s = "" then none else some s
  | none => none

/-- Python truthiness filter for an optional integer (`0` is falsy). -/
def intTruthy : Option Int → Option Int
  | some v => if v = 0 then none else some v
  | none => none

/-- Python truthiness filter for an optional float (`0.0` is falsy). -/
def ratTruthy : Option Rat → Option Rat
  | some v => if v = 0 then none else some v
  | none => none

/-- Python `int()` on a float: truncation toward zero. -/
def pyInt (q : Rat) : Int :=
  if q < 0 then ⌈q⌉ else ⌊q⌋

/-- `YtDlpService._extract_quality_label`. -/
def extractQualityLabel (raw : RawFormat) : String :=
  match intTruthy raw.height with
  | some h => toString h ++ "p"
  | none =>
    match ratTruthy raw.abr with
    | some a => toString (pyInt a) ++ "kbps"
    | none =>
      ((strTruthy raw.format_note).getD ((strTruthy raw.quality).getD "unknown"))

/-- The known video container extensions `VIDEO_CONTAINER_EXTS`. -/
def videoContainerExts : List String := ["mp4", "m4v", "mov"]

/-- `YtDlpService._determine_mime_type`. -/
def determineMimeType (raw : RawFormat) : String :=
  let ext := raw.ext.getD "unknown"
  let vcodec := raw.vcodec.getD "none"
  let acodec := raw.acodec.getD "none"
  if vcodec ≠ "none" then "video/" ++ ext
  else if acodec ≠ "none" then "audio/" ++ ext
  else if videoContainerExts.contains ext then "video/" ++ ext
  else "application/" ++ ext

/-- `raw_format.get("filesize") or raw_format.get("filesize_approx")`:
a falsy (absent or zero) `filesize` falls back to `filesize_approx`
as-is. -/
def rawFilesize (raw : RawFormat) : Option Int :=
  match intTruthy raw.filesize with
  | some v => some v
  | none => raw.filesize_approx

/-- The `Format(...)` record built by `_normalize_format`. -/
def mkNormalizedFormat (raw : RawFormat) : Format :=
  { id := ((strTruthy raw.format_id).getD ((strTruthy raw.id).getD "unknown"))
    quality_label := extractQualityLabel raw
    mime_type := determineMimeType raw
    filesize_bytes := rawFilesize raw
    is_audio_only := raw.acodec.getD "none" ≠ "none" && raw.vcodec.getD "none" = "none"
    is_video_only := raw.vcodec.getD "none" ≠ "none" && raw.acodec.getD "none" = "none" }

/-- `YtDlpService._normalize_format`; `none` models the pydantic
`ValidationError` raised (and later skipped) when a negative file size
violates `filesize_bytes ≥ 0`. -/
def normalizeFormat (raw : RawFormat) : Option Format :=
  if (rawFilesize raw).any (· < 0) then none
  else some (mkNormalizedFormat raw)

/-- One step of the deduplication loop of `_normalize_formats`: skip a
malformed record, an already-seen id, or the `"unknown"` sentinel. -/
def dedupStep (st : List Format × List String) (raw : RawFormat) :
    List Format × List String :=
  match normalizeFormat raw with
  | none => st
  | some fmt =>
    if ¬ st.2.contains fmt.id ∧ fmt.id ≠ "unknown" then
      (st.1 ++ [fmt], fmt.id :: st.2)
    else st

/-- `YtDlpService._normalize_formats`. -/
def normalizeFormats (raws : List RawFormat) : Except Err (List Format) :=
  if raws.isEmpty then
    .error (.formatNotAvailable "No formats available for this video")
  else
    let fmts := (raws.foldl dedupStep ([], [])).1
    if fmts.isEmpty then .error (.formatNotAvailable "No valid formats found")
    else .ok fmts

/-- Value of a digit run. -/
def digitsVal (l : List Char) : Nat :=
  l.foldl (fun a c => a * 10 + (c.toNat - '0'.toNat)) 0

/-- `re.search(r"(\d+)p", label)`: the first maximal digit run that is
immediately followed by `p`; `acc` holds (reversed) the digits read just
before the current position. -/
def labelHeightAux (acc : List Char) : List Char → Option Nat
  | [] => none
  | c :: rest =>
    if c = 'p' ∧ acc ≠ [] then some (digitsVal acc.reverse)
    else if c.isDigit then labelHeightAux (c :: acc) rest
    else labelHeightAux [] rest

/-- Height extracted from a quality label, as `_create_merged_formats`
and `_sort_formats` do. -/
def labelHeight (label : String) : Option Nat :=
  labelHeightAux [] label.data

/-- The static `MERGE_TIERS` table: (height, label, internal id). -/
def mergeTiers : List (Nat × String × String) :=
  [(2160, "4K Ultra HD (2160p)", "merged-2160"),
   (1440, "QHD (1440p)",         "merged-1440"),
   (1080, "Full HD (1080p)",      "merged-1080"),
   (720,  "HD (720p)",            "merged-720"),
   (480,  "SD (480p)",            "merged-480")]

/-- Heights of formats whose quality label carries `\d+p` and whose mime
type contains `"video/"`. -/
def availableHeights (formats : List Format) : List Nat :=
  formats.filterMap (fun f =>
    match labelHeight f.quality_label with
    | some h => if pyContains f.mime_type "video/" then some h else none
    | none => none)

/-- The "best available" merged selector chain (H.264 + AAC fallbacks,
never a bare `best`). -/
def bestMergedSelector : String :=
  "bestvideo[vcodec^=avc1]+bestaudio[acodec^=mp4a]" ++
  "/bestvideo[vcodec^=avc1]+bestaudio[acodec^=mp4]" ++
  "/bestvideo[vcodec^=avc]+bestaudio[acodec^=mp4a]" ++
  "/best[vcodec^=avc1]" ++
  "/best[vcodec^=avc]"

/-- The resolution-capped merged selector chain for one tier height. -/
def tierSelector (h : Nat) : String :=
  "bestvideo[height<=" ++ toString h ++ "][vcodec^=avc1]" ++
  "+bestaudio[acodec^=mp4a]" ++
  "/bestvideo[height<=" ++ toString h ++ "][vcodec^=avc1]" ++
  "+bestaudio[acodec^=mp4]" ++
  "/bestvideo[height<=" ++ toString h ++ "][vcodec^=avc]" ++
  "+bestaudio[acodec^=mp4a]" ++
  "/best[height<=" ++ toString h ++ "][vcodec^=avc1]" ++
  "/best[height<=" ++ toString h ++ "][vcodec^=avc]"

/-- `YtDlpService._create_merged_formats`. -/
def createMergedFormats (formats : List Format) : List Format :=
  let avail := availableHeights formats
  { id := bestMergedSelector
    quality_label := "Best Available (Merged)"
    mime_type := "video/mp4"
    filesize_bytes := none
    is_audio_only := false
    is_video_only := false } ::
  (mergeTiers.filter (fun t => avail.contains t.1)).map (fun t =>
    { id := tierSelector t.1
      quality_label := t.2.1 ++ " (Merged)"
      mime_type := "video/mp4"
      filesize_bytes := none
      is_audio_only := false
      is_video_only := false })

/-- The display priority of `_sort_formats`' key. -/
def sortPriority (f : Format) : Nat :=
  if pyContains (pyLower f.quality_label) "best available" then 0
  else if pyContains (pyLower f.quality_label) "merged" then 1
  else 2

/-- Comparison on the composite sort key
`(priority, is_audio_only, -height)`. -/
def sortLE (f g : Format) : Bool :=
  let hf : Int := ((labelHeight f.quality_label).getD 0 : Nat)
  let hg : Int := ((labelHeight g.quality_label).getD 0 : Nat)
  (sortPriority f < sortPriority g) ||
  (sortPriority f = sortPriority g &&
    ((f.is_audio_only.toNat < g.is_audio_only.toNat) ||
     (f.is_audio_only = g.is_audio_only && (-hf ≤ -hg))))

/-- Stable insertion of a later element: it goes after every already
placed element whose key is not strictly greater. -/
def insertSorted (f : Format) : List Format → List Format
  | [] => [f]
  | g :: gs =>
    if sortLE f g ∧ ¬ sortLE g f then f :: g :: gs
    else g :: insertSorted f gs

/-- `YtDlpService._sort_formats`: Python `list.sort` is a stable sort by
the composite key; a stable sort over the total preorder `sortLE` is
unique, here realised as stable insertion sort. -/
def sortFormats (formats : List Format) : List Format :=
  formats.foldl (fun acc f => insertSorted f acc) []

/-- The `VideoInfo` pydantic model. -/
structure VideoInfo where
  title : String
  thumbnail_url : Option String := none
  duration_seconds : Option Int := none
  formats : List Format
  deriving Repr, DecidableEq

/-! ## Model of the progress-line regexes

Scanners for the `re` patterns used with `--newline` output
(`_PROGRESS_PCT_RE`, `_SIZE_OF_RE`, `_SPEED_RE`, `_ETA_RE`,
`_DESTINATION_RE`, `_MERGER_RE`), implementing `re.search`'s
leftmost-match with greedy runs; the groups come out as character
lists. -/

/-- Python regex `\s` (ASCII). -/
def regexSpace (c : Char) : Bool := pyIsSpace c

/-- The `[\d.]` class. -/
def pctDigit (c : Char) : Bool := c.isDigit || c = '.'

/-- Try a matcher at every start position, leftmost first. -/
def searchWith (f : List Char → Option α) : List Char → Option α
  | [] => none
  | c :: rest => ((f (c :: rest)).orElse (fun _ => searchWith f rest))

/-- `\[download\]\s+([\d.]+)%` at one position. -/
def matchPctAt (l : List Char) : Option (List Char) :=
  if "[download]".data.isPrefixOf l then
    let l1 := l.drop 10
    let sp := l1.takeWhile regexSpace
    if sp.isEmpty then none
    else
      let l2 := l1.drop sp.length
      let run := l2.takeWhile pctDigit
      if run.isEmpty then none
      else
        match l2.drop run.length with
        | '%' :: _ => some run
        | _ => none
  else none

/-- `_PROGRESS_PCT_RE.search(line)`, group 1. -/
def searchPct (l : List Char) : Option (List Char) :=
  searchWith matchPctAt l

/-- `of\s+~?([\d.]+)\s*(\S+)` at one position.  When only spaces follow
the digit run, the regex engine backtracks one digit so that `(\S+)` can
match it (e.g. `"of 42"` yields groups `("4", "2")`). -/
def matchSizeAt (l : List Char) : Option (List Char × List Char) :=
  if ['o', 'f'].isPrefixOf l then
    let l1 := l.drop 2
    let sp := l1.takeWhile regexSpace
    if sp.isEmpty then none
    else
      let l2 := l1.drop sp.length
      let l3 := match l2 with
        | '~' :: t => t
        | _ => l2
      let run := l3.takeWhile pctDigit
      if run.isEmpty then none
      else
        let l4 := (l3.drop run.length).dropWhile regexSpace
        let unit := l4.takeWhile (fun c => ¬ regexSpace c)
        if ¬ unit.isEmpty then some (run, unit)
        else if 2 ≤ run.length then some (run.dropLast, [run.getLastD ' '])
        else none
  else none

/-- `_SIZE_OF_RE.search(line)`, groups 1 and 2. -/
def searchSize (l : List Char) : Option (List Char × List Char) :=
  searchWith matchSizeAt l

/-- Largest `k ≥ 1` such that `"/s"` starts at offset `k` of `ns` (the
backtracking of `\S+` before the literal `/s`). -/
def lastSlashS (ns : List Char) : Option Nat :=
  (List.range ns.length).reverse.find? (fun k =>
    decide (1 ≤ k) && ['/', 's'].isPrefixOf (ns.drop k))

/-- `at\s+([\d.]+\s*\S+/s)` at one position. -/
def matchSpeedAt (l : List Char) : Option (List Char) :=
  if ['a', 't'].isPrefixOf l then
    let l1 := l.drop 2
    let sp := l1.takeWhile regexSpace
    if sp.isEmpty then none
    else
      let l2 := l1.drop sp.length
      let run := l2.takeWhile pctDigit
      if run.isEmpty then none
      else
        let l3 := l2.drop run.length
        let sp2 := l3.takeWhile regexSpace
        let ns := (l3.drop sp2.length).takeWhile (fun c => ¬ regexSpace c)
        match lastSlashS ns with
        | some k => some (run ++ sp2 ++ ns.take (k + 2))
        | none => none
  else none

/-- `_SPEED_RE.search(line)`, group 1. -/
def searchSpeed (l : List Char) : Option (List Char) :=
  searchWith matchSpeedAt l

/-- `ETA\s+(\S+)` at one position. -/
def matchEtaAt (l : List Char) : Option (List Char) :=
  if "ETA".data.isPrefixOf l then
    let l1 := l.drop 3
    let sp := l1.takeWhile regexSpace
    if sp.isEmpty then none
    else
      let ns := (l1.drop sp.length).takeWhile (fun c => ¬ regexSpace c)
      if ns.isEmpty then none else some ns
  else none

/-- `_ETA_RE.search(line)`, group 1. -/
def searchEta (l : List Char) : Option (List Char) :=
  searchWith matchEtaAt l

/-- `\[download\]\s+Destination:` at one position. -/
def matchDestAt (l : List Char) : Bool :=
  "[download]".data.isPrefixOf l &&
    (let l1 := l.drop 10
     let sp := l1.takeWhile regexSpace
     !sp.isEmpty && "Destination:".data.isPrefixOf (l1.drop sp.length))

/-- `_DESTINATION_RE.search(line)` truthiness. -/
def searchDest : List Char → Bool
  | [] => false
  | c :: rest => matchDestAt (c :: rest) || searchDest rest

/-- Python `float(s)` for a `[\d.]+` group: digits with at most one dot,
not a bare dot; `none` models the `ValueError`. -/
def parseFloat (l : List Char) : Option Rat :=
  let ip := l.takeWhile Char.isDigit
  match l.drop ip.length with
  | [] => if ip.isEmpty then none else some (digitsVal ip : Rat)
  | '.' :: frac =>
    if frac.all Char.isDigit ∧ ¬ (ip.isEmpty ∧ frac.isEmpty) then
      some ((digitsVal ip : Rat) + (digitsVal frac : Rat) / ((10 : Rat) ^ frac.length))
    else none
  | _ => none

/-- The `_SIZE_UNITS` multiplier table. -/
def sizeUnits : List (String × Rat) :=
  [("B", 1), ("KiB", 1024), ("MiB", 1024 ^ 2), ("GiB", 1024 ^ 3),
   ("KB", 1000), ("MB", 1000 ^ 2), ("GB", 1000 ^ 3),
   ("kB", 1000), ("k", 1000)]

/-- `_parse_size_bytes`: unknown units multiply by 1; a bad float yields 0. -/
def parseSizeBytes (value unit : String) : Int :=
  let mult := (((sizeUnits.find? (fun p => p.1 = unit)).map (·.2)).getD 1)
  match parseFloat value.data with
  | some q => pyInt (q * mult)
  | none => 0

/-! ## Download task state and the progress reader -/

/-- The `DownloadTask` dataclass of `app/services/download_tasks.py`. -/
structure DownloadTask where
  task_id : String
  status : String := "pending"
  phase : String := ""
  progress : Rat := 0
  speed : String := ""
  eta : String := ""
  file_path : Option String := none
  temp_dir : Option String := none
  filename : String := ""
  content_type : String := "video/mp4"
  file_size : Int := 0
  downloaded_bytes : Int := 0
  total_bytes : Int := 0
  error : Option String := none
  created_at : Rat := 0
  deriving Repr, DecidableEq

/-- `download_tasks.create_task`: a fresh task is registered with
default state (`status = "pending"`, `progress = 0`). -/
def createTask (task_id : String) (filename : String := "")
    (content_type : String := "video/mp4") : DownloadTask :=
  { task_id := task_id, filename := filename, content_type := content_type }

/-- The progress rescaling of `_read_stdout`'s percentage branch: stream
0 of a two-stream request maps raw ∈ [0,100] to [0,65], stream ≥ 1 to
[65,90], a single stream to [0,90]; the result is capped at 91. -/
def pctProgress (isTwoStream : Bool) (idx : Int) (raw : Rat) : Rat :=
  min
    (if isTwoStream then
      if idx ≤ 0 then raw * (65 / 100) else 65 + raw * (25 / 100)
    else raw * (90 / 100))
    91

/-- One iteration of `_read_stdout` in `download_merged_with_progress`,
over the explicit state (current stream index, task).  `Except Unit`
models the reader's `try`: the only uncaught failure point is
`float(pct_m.group(1))`, after which the reader thread stops without
having mutated the task on that line. -/
def processLine (isTwoStream : Bool) (st : Int × DownloadTask)
    (rawLine : String) : Except Unit (Int × DownloadTask) := do
  let line := pyStrip rawLine
  let idx := st.1
  let task := st.2
  if line = "" then pure st
  else if searchDest line.data then
    let idx := idx + 1
    let task :=
      if isTwoStream then
        { task with phase := if idx = 0 then "video" else "audio" }
      else task
    pure (idx, { task with speed := "", eta := "" })
  else if pyContains line "[Merger]" then
    pure (idx, { task with
      status := "merging", phase := "merge", progress := 92,
      speed := "", eta := "" })
  else
    match searchPct line.data with
    | none => pure st
    | some run =>
      match parseFloat run with
      | none => .error ()
      | some raw =>
        let task := { task with progress := pctProgress isTwoStream idx raw }
        let task :=
          match searchSize line.data with
          | some (v, u) =>
            let streamBytes := parseSizeBytes ⟨v⟩ ⟨u⟩
            let task :=
              if isTwoStream then
                if idx ≤ 0 then { task with total_bytes := streamBytes }
                else if 0 < streamBytes then
                  if task.total_bytes < streamBytes * 5 then
                    { task with total_bytes := task.total_bytes + streamBytes }
                  else task
                else task
              else { task with total_bytes := streamBytes }
            { task with
              downloaded_bytes := pyInt ((task.total_bytes : Rat) * task.progress / 100) }
          | none => task
        let task :=
          match searchSpeed line.data with
          | some s => { task with speed := ⟨s⟩ }
          | none => task
        let task :=
          match searchEta line.data with
          | some s => { task with eta := ⟨s⟩ }
          | none => task
        pure (idx, task)

/-- The reader loop: the intermediate states after each line (a parse
exception stops the loop, leaving the state unchanged from then on). -/
def readerTrace (isTwoStream : Bool) :
    List String → Int × DownloadTask → List (Int × DownloadTask)
  | [], _ => []
  | line :: rest, st =>
    match processLine isTwoStream st line with
    | .ok st' => st' :: readerTrace isTwoStream rest st'
    | .error _ => []

/-! ## Download orchestrator -/

/-- How the supervised subprocess run ends: `process.wait(timeout=3600)`
expires, or the process exits with a code (and, for the synchronous
variant, captured stderr). -/
inductive RunOutcome where
  | timeout
  | exit (code : Int) (stderr : String)
  deriving Repr, DecidableEq

/-- `YtDlpService.download_format`'s validation and spawn decision:
`InvalidUrl("Invalid format_id")` on a selector failing the pattern,
any URL-gate error from `build_download_command`'s `normalize_url`,
otherwise the subprocess is started (`.ok`). -/
def downloadFormatStart (st : Settings) (url format_id : String) :
    Except Err Unit :=
  if ¬ formatIdMatch format_id then .error (.invalidUrl "Invalid format_id")
  else (normalizeUrl st url).map (fun _ => ())

/-- `YtDlpService.download_merged_to_file`, abstracted over the run
outcome and the post-run listing of the fresh temp directory.  Returns
the operation's result together with whether the temp directory was
removed (`shutil.rmtree`) on the way out. -/
def downloadMergedToFile (st : Settings) (url format_id : String)
    (tempDir : String) (outcome : RunOutcome) (files : List String) :
    Except Err (String × String) × Bool :=
  if ¬ formatIdMatch format_id then
    (.error (.invalidUrl "Invalid format_id"), false)
  else
    match normalizeUrl st url with
    | .error e => (.error e, false)
    | .ok _ =>
      match outcome with
      | .timeout => (.error (.ytdlpFailed "Download timed out (1-hour limit)"), true)
      | .exit code stderr =>
        if code ≠ 0 then
          (.error (.ytdlpFailed ("Download failed: " ++ ⟨stderr.data.take 200⟩)), true)
        else
          match files.filter (fun f => ¬ startsWithDot f) with
          | [] => (.error (.ytdlpFailed "Download produced no output file"), true)
          | f :: _ => (.ok (tempDir ++ "/" ++ f, tempDir), false)

/-- The finalisation of `download_merged_with_progress` after
`process.wait`: timeout or a non-zero exit or an empty output directory
mark the task `failed` (the temp directory being removed), otherwise
`file_path`/`temp_dir`/`file_size` are set, progress is forced to 100
and the status becomes `completed`. -/
def finalizeProgressTask (last : DownloadTask) (tempDir : String)
    (outcome : RunOutcome) (files : List String) (outSize : Int) :
    DownloadTask :=
  match outcome with
  | .timeout =>
    { last with status := "failed", error := some "Download timed out (1-hour limit)" }
  | .exit code _ =>
    if code ≠ 0 then
      { last with status := "failed", error := some "Download failed" }
    else
      match files.filter (fun f => ¬ startsWithDot f) with
      | [] => { last with status := "failed", error := some "Download produced no output" }
      | f :: _ =>
        { last with
          file_path := some (tempDir ++ "/" ++ f)
          temp_dir := some tempDir
          file_size := outSize
          progress := 100
          status := "completed"
          speed := ""
          eta := "" }

/-- One execution of `YtDlpService.download_merged_with_progress`,
sequentialised (the reader thread consumes all produced lines before
the final wait/finalisation — the `reader.join`).  The result is the
sequence of task states at every mutation point: the initial task, the
state after validation / the `status="downloading"` assignment, one
state per processed line, and the final state after the subprocess
outcome is handled. -/
def downloadMergedWithProgressTrace (st : Settings) (url format_id : String)
    (task : DownloadTask) (lines : List String) (tempDir : String)
    (outcome : RunOutcome) (files : List String) (outSize : Int) :
    List DownloadTask :=
  if ¬ formatIdMatch format_id then
    [task, { task with status := "failed", error := some "Invalid format_id" }]
  else
    match normalizeUrl st url with
    | .error _ => [task]
    | .ok _ =>
      let isTwoStream := pyContains format_id "+"
      let t1 := { task with
        status := "downloading"
        phase := if isTwoStream then "video" else "" }
      let states := readerTrace isTwoStream lines (-1, t1)
      let last := (states.getLastD (-1, t1)).2
      task :: t1 :: states.map (·.2) ++
        [finalizeProgressTask last tempDir outcome files outSize]

/-- The proviso of the amended C4 monotonicity clause, checked over the
raw line sequence exactly as the reader classifies lines: every parsed
raw percentage lies in `[0, 100]` and is at least the previous raw of
the same scaling regime, and no percentage line occurs after a merge
marker.  For a two-stream request the lines before the second
destination marker (stream index ≤ 0, all rescaled by the same 0.65
factor) form one regime and the later lines the other; a single-stream
request is a single regime throughout.  A line whose percentage fails
to parse stops the reader, so nothing after it is constrained. -/
def linesMonotone (isTwoStream : Bool) :
    List String → Int → Option Rat → Bool → Bool
  | [], _, _, _ => true
  | rawLine :: rest, idx, lastRaw, seenMerger =>
    let line := pyStrip rawLine
    if line = "" then linesMonotone isTwoStream rest idx lastRaw seenMerger
    else if searchDest line.data then
      linesMonotone isTwoStream rest (idx + 1)
        (if isTwoStream = true ∧ idx = 0 then none else lastRaw) seenMerger
    else if pyContains line "[Merger]" then
      linesMonotone isTwoStream rest idx lastRaw true
    else
      match searchPct line.data with
      | none => linesMonotone isTwoStream rest idx lastRaw seenMerger
      | some run =>
        match parseFloat run with
        | none => true
        | some raw =>
          !seenMerger && decide (0 ≤ raw) && decide (raw ≤ 100) &&
            (match lastRaw with
             | none => true
             | some r0 => decide (r0 ≤ raw)) &&
            linesMonotone isTwoStream rest idx (some raw) seenMerger

/-- The invariant carried through the reader loop by the monotonicity
proof: after a merge marker the progress sits at 92; before it, either
no percentage has been seen in the current scaling regime and the
progress is at most the regime floor (0, or 65 once a two-stream
request has moved past stream 0), or the progress equals the rescaling
of the last raw seen, which lies in `[0, 100]`. -/
def readerInv (isTwoStream : Bool) (idx : Int) (task : DownloadTask)
    (lastRaw : Option Rat) (seenMerger : Bool) : Prop :=
  match seenMerger, lastRaw with
  | true, _ => task.progress = 92
  | false, none =>
    task.progress ≤ (if isTwoStream = true ∧ 1 ≤ idx then 65 else 0)
  | false, some r0 =>
    0 ≤ r0 ∧ r0 ≤ 100 ∧ task.progress = pctProgress isTwoStream idx r0

/-! ## Result cache (`cachetools.TTLCache` under the service wrappers) -/

/-- `YtDlpService._cache_enabled`. -/
def cacheEnabled (st : Settings) : Bool :=
  0 < st.YTDLP_FORMATS_CACHE_TTL_SECONDS ∧ 0 < st.YTDLP_FORMATS_CACHE_MAXSIZE

/-- The effective TTL of the lazily created `TTLCache`
(`max(1, settings.YTDLP_FORMATS_CACHE_TTL_SECONDS)`). -/
def cacheTtl (st : Settings) : Rat :=
  ((max 1 st.YTDLP_FORMATS_CACHE_TTL_SECONDS : Int) : Rat)

/-- The effective capacity (`max(1, settings.YTDLP_FORMATS_CACHE_MAXSIZE)`). -/
def cacheMaxsize (st : Settings) : Nat :=
  (max 1 st.YTDLP_FORMATS_CACHE_MAXSIZE).toNat

/-- The TTL cache contents: key, value and expiry time, in insertion
order (cachetools keeps links in insertion order, so eviction removes
the earliest expiry first). -/
structure CacheState where
  entries : List (String × VideoInfo × Rat) := []
  deriving Repr, DecidableEq

/-- `TTLCache.__setitem__` at time `now`: purge expired entries, replace
any entry with the same key, stamp expiry `now + ttl`, and evict from
the front while over capacity. -/
def cacheSetRaw (maxsize : Nat) (ttl now : Rat) (k : String) (v : VideoInfo)
    (entries : List (String × VideoInfo × Rat)) :
    List (String × VideoInfo × Rat) :=
  let purged := (entries.filter (fun e => now < e.2.2)).filter (fun e => e.1 ≠ k)
  let appended := purged ++ [(k, v, now + ttl)]
  if maxsize < appended.length then appended.drop (appended.length - maxsize)
  else appended

/-- `TTLCache.get` at time `now`: an expired entry reads as absent. -/
def cacheGetRaw (now : Rat) (k : String)
    (entries : List (String × VideoInfo × Rat)) : Option VideoInfo :=
  match entries.find? (fun e => e.1 = k) with
  | some e => if now < e.2.2 then some e.2.1 else none
  | none => none

/-- `YtDlpService.get_cached_formats`: validate the URL first, then
consult the enabled flag and the cache. -/
def getCachedFormats (st : Settings) (cache : CacheState) (now : Rat)
    (url : String) : Except Err (Option VideoInfo) :=
  match normalizeUrl st url with
  | .error e => .error e
  | .ok nu =>
    if ¬ cacheEnabled st then .ok none
    else .ok (cacheGetRaw now nu cache.entries)

/-- `YtDlpService._cache_set_formats`: a no-op when caching is disabled. -/
def cacheSetFormats (st : Settings) (cache : CacheState) (now : Rat)
    (normalizedUrl : String) (v : VideoInfo) : CacheState :=
  if ¬ cacheEnabled st then cache
  else ⟨cacheSetRaw (cacheMaxsize st) (cacheTtl st) now normalizedUrl v cache.entries⟩

/-- The format list of `_extract_video_info`: normalized raw formats,
synthesized merged formats in front, sorted for display. -/
def buildCatalogFormats (raws : List RawFormat) : Except Err (List Format) :=
  (normalizeFormats raws).map (fun fmts =>
    sortFormats (createMergedFormats fmts ++ fmts))

/-- The status transitions the progress-tracked download's task
lifecycle can take (the amended transition set). -/
def allowedTransition (a b : String) : Prop :=
  (a = "pending" ∧ b = "downloading") ∨ (a = "pending" ∧ b = "failed") ∨
  (a = "downloading" ∧ b = "merging") ∨ (a = "downloading" ∧ b = "completed") ∨
  (a = "downloading" ∧ b = "failed") ∨ (a = "merging" ∧ b = "completed") ∨
  (a = "merging" ∧ b = "failed")

/-! ## Theorems -/

/-- Every string in the amended claim's domain fails the pattern: the
empty string, and any string containing a character outside the
selector class that is not the Python-`$` exception (a single trailing
newline after at least one in-class character). -/
lemma formatIdMatch_eq_false (s : String)
    (h : s.data = [] ∨
      ((∃ c ∈ s.data, formatIdChar c = false) ∧
        ¬ (s.data.getLast? = some '\n' ∧ s.data.dropLast ≠ [] ∧
          ∀ c ∈ s.data.dropLast, formatIdChar c = true))) :
    formatIdMatch s = false := by
  rcases h with hnil | ⟨⟨c, hc, hcf⟩, hexc⟩
  · simp [formatIdMatch, hnil]
  · rw [Bool.eq_false_iff]
    intro hm
    simp only [formatIdMatch, Bool.or_eq_true, Bool.and_eq_true,
      Bool.not_eq_true', beq_iff_eq, decide_eq_true_eq, List.all_eq_true] at hm
    rcases hm with ⟨_, hall⟩ | ⟨⟨hlen, hlast⟩, hall⟩
    · rw [hall c hc] at hcf
      simp at hcf
    · refine hexc ⟨hlast, ?_, hall⟩
      have hld : s.data.dropLast.length = s.data.length - 1 :=
        List.length_dropLast _
      intro hemp
      rw [hemp] at hld
      simp only [List.length_nil] at hld
      omega

/-- C1 (amended): a format selector rejected by the pattern — empty, or
containing a character outside `[A-Za-z0-9+\[\]<>=^:/\-_.]` other than a
single trailing newline after at least one in-class character — makes
`download_format` and `download_merged_to_file` raise
`InvalidUrl("Invalid format_id")` before any subprocess work (in
particular no temp directory is touched), while
`download_merged_with_progress` instead marks the task `failed` with
error `"Invalid format_id"` and returns without raising. -/
theorem c1_amended (s : String)
    (h : s.data = [] ∨
      ((∃ c ∈ s.data, formatIdChar c = false) ∧
        ¬ (s.data.getLast? = some '\n' ∧ s.data.dropLast ≠ [] ∧
          ∀ c ∈ s.data.dropLast, formatIdChar c = true))) :
    ∀ (st : Settings) (url : String) (task : DownloadTask)
      (lines : List String) (tempDir : String) (outcome : RunOutcome)
      (files : List String) (outSize : Int),
      downloadFormatStart st url s = .error (.invalidUrl "Invalid format_id") ∧
      downloadMergedToFile st url s tempDir outcome files =
        (.error (.invalidUrl "Invalid format_id"), false) ∧
      downloadMergedWithProgressTrace st url s task lines tempDir outcome files outSize =
        [task, { task with status := "failed", error := some "Invalid format_id" }] := by
  intro st url task lines tempDir outcome files outSize
  have hfm := formatIdMatch_eq_false s h
  refine ⟨?_, ?_, ?_⟩
  · simp [downloadFormatStart, hfm]
  · simp [downloadMergedToFile, hfm]
  · simp [downloadMergedWithProgressTrace, hfm]

/-- Witness for C1 (amended) at the domain's boundary points: the empty
selector and the bare-newline selector `"\n"` are both rejected by all
three operations in the described ways. -/
theorem c1_amended_witness :
    (downloadFormatStart {} "https://example.com/v" "" =
        .error (.invalidUrl "Invalid format_id") ∧
      downloadMergedToFile {} "https://example.com/v" "" "/tmp/d" (.exit 0 "") [] =
        (.error (.invalidUrl "Invalid format_id"), false) ∧
      downloadMergedWithProgressTrace {} "https://example.com/v" ""
          (createTask "t") [] "/tmp/d" (.exit 0 "") [] 0 =
        [createTask "t",
         { createTask "t" with status := "failed", error := some "Invalid format_id" }]) ∧
    (downloadFormatStart {} "https://example.com/v" "\n" =
        .error (.invalidUrl "Invalid format_id") ∧
      downloadMergedToFile {} "https://example.com/v" "\n" "/tmp/d" (.exit 0 "") [] =
        (.error (.invalidUrl "Invalid format_id"), false) ∧
      downloadMergedWithProgressTrace {} "https://example.com/v" "\n"
          (createTask "t") [] "/tmp/d" (.exit 0 "") [] 0 =
        [createTask "t",
         { createTask "t" with status := "failed", error := some "Invalid format_id" }]) :=
  ⟨c1_amended "" (Or.inl (by decide))
      {} "https://example.com/v" (createTask "t") [] "/tmp/d" (.exit 0 "") [] 0,
   c1_amended "\n" (Or.inr ⟨⟨'\n', by decide, by decide⟩, by decide⟩)
      {} "https://example.com/v" (createTask "t") [] "/tmp/d" (.exit 0 "") [] 0⟩

/-- C1 as stated is false on two counts: the selector `";"` (outside the
class) makes `download_merged_with_progress` mark the task failed and
return normally instead of raising `InvalidUrl`; and the selector
`"a\n"` contains whitespace outside the class yet passes the pattern
(Python's `$` tolerates the trailing newline), so `download_format` and
`download_merged_to_file` proceed to spawn rather than reject. -/
theorem c1_counterexample :
    (formatIdChar ';' = false ∧
      downloadMergedWithProgressTrace {} "https://example.com/v" ";"
          (createTask "t") [] "/tmp/d" (.exit 0 "") [] 0 =
        [createTask "t",
         { createTask "t" with status := "failed", error := some "Invalid format_id" }]) ∧
    (formatIdChar '\n' = false ∧ '\n' ∈ "a\n".data ∧
      formatIdMatch "a\n" = true ∧
      downloadFormatStart {} "https://example.com/v" "a\n" = .ok () ∧
      downloadMergedToFile {} "https://example.com/v" "a\n" "/tmp/d"
          (.exit 0 "") ["out.mp4"] = (.ok ("/tmp/d/out.mp4", "/tmp/d"), false)) :=
  ⟨⟨by decide, by rfl⟩, by decide, by decide, by decide, by rfl, by rfl⟩

/-- Equality of `Except` results is decidable (used only to evaluate the
embedding at concrete witnesses). -/
instance {e a : Type} [DecidableEq e] [DecidableEq a] : DecidableEq (Except e a) :=
  fun x y =>
    match x, y with
    | .ok v, .ok w => if h : v = w then .isTrue (by rw [h]) else .isFalse (by simp [h])
    | .error v, .error w => if h : v = w then .isTrue (by rw [h]) else .isFalse (by simp [h])
    | .ok _, .error _ => .isFalse (by simp)
    | .error _, .ok _ => .isFalse (by simp)

/-- Every failure of the URL gate is an `InvalidUrl`. -/
lemma normalizeUrl_error_invalid (st : Settings) (url : String) (e : Err)
    (h : normalizeUrl st url = .error e) : ∃ m, e = .invalidUrl m := by
  simp only [normalizeUrl] at h
  repeat' split at h
  all_goals first
    | (injection h with h'; exact ⟨_, h'.symm⟩)
    | (cases h)

/-- C2: the URL gate fails with `InvalidUrl` on a disallowed scheme (or
an unparseable URL); a URL whose host is a localhost alias
(`localhost`, `127.0.0.1`, `0.0.0.0`, `::1`) or an IP literal
classified private/loopback/link-local fails with `InvalidUrl` whenever
private-network blocking is enabled, and succeeds when blocking is
disabled (given an allowed scheme); on success the trimmed original URL
string is returned unchanged. -/
theorem c2 (st : Settings) (url : String) :
    (pyUrlparse (pyStrip url) = none →
      normalizeUrl st url = .error (.invalidUrl "Malformed URL")) ∧
    (∀ p, pyUrlparse (pyStrip url) = some p →
      pyLower p.scheme ∉ st.allowedSchemesList →
      normalizeUrl st url = .error (.invalidUrl
        ("URL scheme not allowed. Allowed schemes: " ++
          String.intercalate ", " st.allowedSchemesList))) ∧
    (∀ p host, pyUrlparse (pyStrip url) = some p →
      hostnameOf p.netloc = some host →
      (pyLower host ∈ blockedHostnames ∨
        ∃ ip, pyIpAddress host = some ip ∧ ipBlocked ip = true) →
      st.BLOCK_PRIVATE_NETWORKS = true →
      ∃ m, normalizeUrl st url = .error (.invalidUrl m)) ∧
    (∀ p host, pyUrlparse (pyStrip url) = some p →
      pyLower p.scheme ∈ st.allowedSchemesList →
      hostnameOf p.netloc = some host →
      st.BLOCK_PRIVATE_NETWORKS = false →
      normalizeUrl st url = .ok (pyStrip url)) ∧
    (∀ r, normalizeUrl st url = .ok r → r = pyStrip url) := by
  refine ⟨?_, ?_, ?_, ?_, ?_⟩
  · intro hp
    simp [normalizeUrl, hp]
  · intro p hp hs
    simp [normalizeUrl, hp, hs]
  · intro p host hp hhost hblk hon
    by_cases hs : pyLower p.scheme ∈ st.allowedSchemesList
    · rcases hblk with hname | ⟨ip, hip, hipb⟩
      · cases hip2 : pyIpAddress host with
        | none =>
          exact ⟨"Localhost URLs are not allowed",
            by simp [normalizeUrl, hp, hs, hhost, hon, hip2, hname]⟩
        | some ip2 =>
          by_cases hipb2 : ipBlocked ip2 = true
          · exact ⟨"Private network URLs are not allowed",
              by simp [normalizeUrl, hp, hs, hhost, hon, hip2, hipb2]⟩
          · exact ⟨"Localhost URLs are not allowed",
              by simp [normalizeUrl, hp, hs, hhost, hon, hip2, hipb2, hname]⟩
      · exact ⟨"Private network URLs are not allowed",
          by simp [normalizeUrl, hp, hs, hhost, hon, hip, hipb]⟩
    · exact ⟨"URL scheme not allowed. Allowed schemes: " ++
        String.intercalate ", " st.allowedSchemesList,
        by simp [normalizeUrl, hp, hs]⟩
  · intro p host hp hs hhost hoff
    simp [normalizeUrl, hp, hs, hhost, hoff]
  · intro r hr
    simp only [normalizeUrl] at hr
    repeat' split at hr
    all_goals first
      | (injection hr with h'; exact h'.symm)
      | (cases hr)

/-- Witness for C2: `"http://10.1.2.3/x"` (private-range IP literal) is
rejected under the default configuration. -/
theorem c2_witness :
    ∃ m, normalizeUrl {} "http://10.1.2.3/x" = .error (.invalidUrl m) :=
  (c2 {} "http://10.1.2.3/x").2.2.1 ⟨"http", "10.1.2.3"⟩ "10.1.2.3"
    (by decide) (by decide)
    (Or.inr ⟨.v4 (ip4 10 1 2 3), by decide, by decide⟩) (by decide)

/-- C10: `get_cached_formats` validates the URL before consulting the
cache or the enabled flag — an invalid URL propagates the `InvalidUrl`
error (never yielding "no cached entry"), for every cache state and
configuration, including configurations with caching disabled. -/
theorem c10 (st : Settings) (cache : CacheState) (now : Rat) (url : String)
    (e : Err) (h : normalizeUrl st url = .error e) :
    getCachedFormats st cache now url = .error e ∧ ∃ m, e = .invalidUrl m := by
  refine ⟨?_, normalizeUrl_error_invalid st url e h⟩
  simp [getCachedFormats, h]

/-- Witness for C10: a disallowed scheme with caching disabled still
raises rather than returning `none`. -/
theorem c10_witness :
    getCachedFormats
        { YTDLP_FORMATS_CACHE_TTL_SECONDS := 0, YTDLP_FORMATS_CACHE_MAXSIZE := 0 }
        ⟨[]⟩ 0 "ftp://example.com/x" =
      .error (.invalidUrl "URL scheme not allowed. Allowed schemes: http, https") ∧
    ∃ m, (Err.invalidUrl "URL scheme not allowed. Allowed schemes: http, https") =
      .invalidUrl m :=
  c10 { YTDLP_FORMATS_CACHE_TTL_SECONDS := 0, YTDLP_FORMATS_CACHE_MAXSIZE := 0 }
    ⟨[]⟩ 0 "ftp://example.com/x" _ (by decide)

/-- Invariant of the deduplication fold of `_normalize_formats`: ids
stay duplicate-free and tracked in the seen set, and every produced
entry either was already accumulated or comes from normalizing one of
the raw records with a non-sentinel id. -/
lemma dedupStep_foldl_inv (raws : List RawFormat) :
    ∀ (acc : List Format) (seen : List String),
      (acc.map Format.id).Nodup →
      (∀ f ∈ acc, f.id ∈ seen) →
      (((raws.foldl dedupStep (acc, seen)).1.map Format.id).Nodup ∧
        (∀ f ∈ (raws.foldl dedupStep (acc, seen)).1,
          f.id ∈ (raws.foldl dedupStep (acc, seen)).2)) ∧
      (∀ f ∈ (raws.foldl dedupStep (acc, seen)).1,
        f ∈ acc ∨ ((∃ raw ∈ raws, normalizeFormat raw = some f) ∧ f.id ≠ "unknown")) := by
  induction raws with
  | nil =>
    intro acc seen hnd hseen
    exact ⟨⟨hnd, hseen⟩, fun f hf => Or.inl hf⟩
  | cons raw rest ih =>
    intro acc seen hnd hseen
    simp only [List.foldl_cons]
    have hstep :
        dedupStep (acc, seen) raw = (acc, seen) ∨
        ∃ fmt, normalizeFormat raw = some fmt ∧ fmt.id ∉ seen ∧ fmt.id ≠ "unknown" ∧
          dedupStep (acc, seen) raw = (acc ++ [fmt], fmt.id :: seen) := by
      unfold dedupStep
      cases hnf : normalizeFormat raw with
      | none => exact Or.inl rfl
      | some fmt =>
        by_cases hc : ¬ seen.contains fmt.id ∧ fmt.id ≠ "unknown"
        · have hns : fmt.id ∉ seen := fun hmem => hc.1 (List.elem_iff.mpr hmem)
          refine Or.inr ⟨fmt, rfl, hns, hc.2, ?_⟩
          dsimp only
          rw [if_pos hc]
        · refine Or.inl ?_
          dsimp only
          rw [if_neg hc]
    rcases hstep with heq | ⟨fmt, hnf, hnotseen, hunk, heq⟩
    · rw [heq]
      obtain ⟨hinv, hprov⟩ := ih acc seen hnd hseen
      refine ⟨hinv, fun f hf => ?_⟩
      rcases hprov f hf with hl | ⟨⟨r, hr, hfr⟩, hne⟩
      · exact Or.inl hl
      · exact Or.inr ⟨⟨r, List.mem_cons_of_mem _ hr, hfr⟩, hne⟩
    · rw [heq]
      have hnd' : ((acc ++ [fmt]).map Format.id).Nodup := by
        rw [List.map_append, List.nodup_append]
        refine ⟨hnd, List.nodup_singleton _, ?_⟩
        intro x hx
        simp only [List.map_cons, List.map_nil, List.mem_singleton]
        intro hxe
        rcases List.mem_map.mp hx with ⟨g, hg, hge⟩
        exact hnotseen (hxe ▸ hge ▸ hseen g hg)
      have hseen' : ∀ f ∈ acc ++ [fmt], f.id ∈ fmt.id :: seen := by
        intro f hf
        rcases List.mem_append.mp hf with hl | hr
        · exact List.mem_cons_of_mem _ (hseen f hl)
        · rw [List.mem_singleton.mp hr]
          exact List.mem_cons_self _ _
      obtain ⟨hinv, hprov⟩ := ih (acc ++ [fmt]) (fmt.id :: seen) hnd' hseen'
      refine ⟨hinv, fun f hf => ?_⟩
      rcases hprov f hf with hl | ⟨⟨r, hr, hfr⟩, hne⟩
      · rcases List.mem_append.mp hl with ha | hb
        · exact Or.inl ha
        · rw [List.mem_singleton.mp hb]
          exact Or.inr ⟨⟨raw, List.mem_cons_self _ _, hnf⟩, hunk⟩
      · exact Or.inr ⟨⟨r, List.mem_cons_of_mem _ hr, hfr⟩, hne⟩

/-- C5: `_normalize_formats` fails with `FormatNotAvailable` on an
empty input list; a successful result has pairwise-distinct ids none of
which is the `"unknown"` sentinel; and for non-empty input it fails
with `FormatNotAvailable` exactly when the deduplicated list comes out
empty. -/
theorem c5 (raws : List RawFormat) (fmts : List Format) :
    (normalizeFormats ([] : List RawFormat) =
      .error (.formatNotAvailable "No formats available for this video")) ∧
    (normalizeFormats raws = .ok fmts →
      (fmts.map Format.id).Nodup ∧ ∀ f ∈ fmts, f.id ≠ "unknown") ∧
    (raws ≠ [] →
      ((∃ m, normalizeFormats raws = .error (.formatNotAvailable m)) ↔
        (raws.foldl dedupStep ([], [])).1 = [])) := by
  refine ⟨by simp [normalizeFormats], ?_, ?_⟩
  · intro h
    simp only [normalizeFormats] at h
    split at h
    · cases h
    · split at h
      · cases h
      · injection h with h'
        obtain ⟨⟨hnd, _⟩, hprov⟩ :=
          dedupStep_foldl_inv raws [] [] (by simp) (by simp)
        rw [h'] at hnd hprov
        refine ⟨hnd, fun f hf => ?_⟩
        rcases hprov f hf with hl | ⟨_, hne⟩
        · cases hl
        · exact hne
  · intro hne
    unfold normalizeFormats
    rw [if_neg (by simpa using hne)]
    constructor
    · rintro ⟨m, hm⟩
      by_contra hfold
      rw [if_neg (by simpa using hfold)] at hm
      cases hm
    · intro hfold
      rw [if_pos (by simpa using hfold)]
      exact ⟨_, rfl⟩

/-- Witness for C5: a list with a duplicate id and a record that
normalizes to the sentinel id yields a deduplicated catalog. -/
theorem c5_witness :
    ((([{ id := "22", quality_label := "720p", mime_type := "video/mp4",
          filesize_bytes := some 12345678, is_audio_only := false,
          is_video_only := false },
        { id := "140", quality_label := "128kbps", mime_type := "audio/m4a",
          filesize_bytes := some 5000000, is_audio_only := true,
          is_video_only := false }] : List Format).map Format.id).Nodup ∧
      ∀ f ∈ ([{ id := "22", quality_label := "720p", mime_type := "video/mp4",
                filesize_bytes := some 12345678, is_audio_only := false,
                is_video_only := false },
              { id := "140", quality_label := "128kbps", mime_type := "audio/m4a",
                filesize_bytes := some 5000000, is_audio_only := true,
                is_video_only := false }] : List Format), f.id ≠ "unknown") :=
  ((c5
    [{ format_id := some "22", ext := some "mp4", height := some 720,
       vcodec := some "avc1", acodec := some "mp4a", filesize := some 12345678 },
     { format_id := some "22", ext := some "mp4", height := some 720,
       vcodec := some "avc1", acodec := some "mp4a", filesize := some 12345678 },
     { ext := some "mp4" },
     { format_id := some "140", ext := some "m4a", abr := some 128,
       vcodec := some "none", acodec := some "mp4a", filesize := some 5000000 }]
    _).2.1 (by decide))

set_option maxRecDepth 16000

/-- Every merged entry is the "best available" entry or a tier entry. -/
lemma mem_createMergedFormats (formats : List Format) (f : Format)
    (hf : f ∈ createMergedFormats formats) :
    f = { id := bestMergedSelector
          quality_label := "Best Available (Merged)"
          mime_type := "video/mp4"
          filesize_bytes := none
          is_audio_only := false
          is_video_only := false } ∨
    ∃ t ∈ mergeTiers,
      f = { id := tierSelector t.1
            quality_label := t.2.1 ++ " (Merged)"
            mime_type := "video/mp4"
            filesize_bytes := none
            is_audio_only := false
            is_video_only := false } := by
  unfold createMergedFormats at hf
  rcases List.mem_cons.mp hf with heq | hmem
  · exact Or.inl heq
  · rcases List.mem_map.mp hmem with ⟨t, ht, hft⟩
    exact Or.inr ⟨t, List.mem_of_mem_filter ht, hft.symm⟩

/-- C6: every synthesized merged entry carries `mime_type "video/mp4"`,
no file size, both only-flags false, and a selector whose every
`/`-separated alternative names a `vcodec` or `acodec` constraint and is
never the bare `best`; exactly one "Best Available" entry is emitted,
followed by exactly the tier entries whose height occurs among the
formats with a `video/` mime type, with pairwise-distinct selector
ids. -/
theorem c6 (formats : List Format) :
    (∀ f ∈ createMergedFormats formats,
      f.mime_type = "video/mp4" ∧ f.filesize_bytes = none ∧
      f.is_audio_only = false ∧ f.is_video_only = false ∧
      ∀ alt ∈ pySplit f.id "/",
        alt ≠ "best" ∧
          (pyContains alt "vcodec" = true ∨ pyContains alt "acodec" = true)) ∧
    ((createMergedFormats formats).countP
      (fun f => f.quality_label == "Best Available (Merged)") = 1) ∧
    ((createMergedFormats formats).map Format.id =
      bestMergedSelector ::
        (mergeTiers.filter (fun t => (availableHeights formats).contains t.1)).map
          (fun t => tierSelector t.1)) ∧
    ((createMergedFormats formats).map Format.id).Nodup := by
  have htiers : ∀ t ∈ mergeTiers,
      ∀ alt ∈ pySplit (tierSelector t.1) "/",
        alt ≠ "best" ∧
          (pyContains alt "vcodec" = true ∨ pyContains alt "acodec" = true) := by
    decide
  have hbest : ∀ alt ∈ pySplit bestMergedSelector "/",
      alt ≠ "best" ∧
        (pyContains alt "vcodec" = true ∨ pyContains alt "acodec" = true) := by
    decide
  refine ⟨?_, ?_, ?_, ?_⟩
  · intro f hf
    rcases mem_createMergedFormats formats f hf with heq | ⟨t, ht, heq⟩
    · subst heq
      exact ⟨rfl, rfl, rfl, rfl, hbest⟩
    · subst heq
      exact ⟨rfl, rfl, rfl, rfl, htiers t ht⟩
  · unfold createMergedFormats
    rw [List.countP_cons]
    have hzero : ((mergeTiers.filter
        (fun t => (availableHeights formats).contains t.1)).map (fun t =>
          ({ id := tierSelector t.1
             quality_label := t.2.1 ++ " (Merged)"
             mime_type := "video/mp4"
             filesize_bytes := none
             is_audio_only := false
             is_video_only := false } : Format))).countP
        (fun f => f.quality_label == "Best Available (Merged)") = 0 := by
      have hlab : ∀ t ∈ mergeTiers,
          ((({ id := tierSelector t.1
               quality_label := t.2.1 ++ " (Merged)"
               mime_type := "video/mp4"
               filesize_bytes := none
               is_audio_only := false
               is_video_only := false } : Format)).quality_label ==
            "Best Available (Merged)") = false := by decide
      rw [List.countP_eq_zero]
      intro f hf
      rcases List.mem_map.mp hf with ⟨t, ht, hft⟩
      have hl := hlab t (List.mem_of_mem_filter ht)
      rw [← hft]
      simp [hl]
    rw [hzero]
    simp
  · unfold createMergedFormats
    rw [List.map_cons, List.map_map]
    rfl
  · unfold createMergedFormats
    rw [List.map_cons, List.map_map]
    have hsub : ((mergeTiers.filter
          (fun t => (availableHeights formats).contains t.1)).map
            (fun t => tierSelector t.1)).Sublist
        (mergeTiers.map (fun t => tierSelector t.1)) :=
      (List.filter_sublist mergeTiers).map _
    rw [List.nodup_cons]
    constructor
    · intro hmem
      have : bestMergedSelector ∈ mergeTiers.map (fun t => tierSelector t.1) :=
        hsub.mem hmem
      revert this
      decide
    · exact (show (mergeTiers.map (fun t => tierSelector t.1)).Nodup by decide).sublist hsub

/-- Witness for C6: on a catalog with one 720p video format the tier-720
entry is present and satisfies the invariants. -/
theorem c6_witness :
    (createMergedFormats
        [{ id := "22", quality_label := "720p", mime_type := "video/mp4" }]).countP
      (fun f => f.quality_label == "Best Available (Merged)") = 1 ∧
    ((createMergedFormats
        [{ id := "22", quality_label := "720p", mime_type := "video/mp4" }]).map
      Format.id).Nodup :=
  ⟨(c6 [{ id := "22", quality_label := "720p", mime_type := "video/mp4" }]).2.1,
   (c6 [{ id := "22", quality_label := "720p", mime_type := "video/mp4" }]).2.2.2⟩

/-- Membership is invariant under stable insertion. -/
lemma mem_insertSorted (x f : Format) (l : List Format) :
    x ∈ insertSorted f l ↔ x = f ∨ x ∈ l := by
  induction l with
  | nil => simp [insertSorted]
  | cons g gs ih =>
    unfold insertSorted
    split
    · simp only [List.mem_cons]
    · simp only [List.mem_cons, ih]
      tauto

/-- Sorting does not change the set of formats. -/
lemma mem_sortFormats (x : Format) (l : List Format) :
    x ∈ sortFormats l ↔ x ∈ l := by
  suffices h : ∀ (l acc : List Format),
      x ∈ l.foldl (fun a f => insertSorted f a) acc ↔ x ∈ acc ∨ x ∈ l by
    rw [sortFormats, h l []]
    simp
  intro l
  induction l with
  | nil => simp
  | cons g gs ih =>
    intro acc
    rw [List.foldl_cons, ih, mem_insertSorted]
    simp only [List.mem_cons]
    tauto

/-- A normalized format never has both only-flags set: the flags are
complementary codec-presence tests. -/
lemma normalizeFormat_flags (raw : RawFormat) (f : Format)
    (h : normalizeFormat raw = some f) :
    ¬ (f.is_audio_only = true ∧ f.is_video_only = true) := by
  unfold normalizeFormat at h
  split at h
  · cases h
  · injection h with h'
    subst h'
    rintro ⟨ha, hv⟩
    simp only [mkNormalizedFormat, Bool.and_eq_true, decide_eq_true_eq] at ha hv
    exact hv.1 ha.2

/-- The deduplicated list of `_normalize_formats` on success. -/
lemma normalizeFormats_ok (raws : List RawFormat) (fmts : List Format)
    (h : normalizeFormats raws = .ok fmts) :
    fmts = (raws.foldl dedupStep ([], [])).1 := by
  simp only [normalizeFormats] at h
  split at h
  · cases h
  · split at h
    · cases h
    · injection h with h'
      exact h'.symm

/-- C9: in a finalized catalog (merged entries plus deduplicated
normalized entries, sorted) no format has both `is_audio_only` and
`is_video_only` set, and no format's id is the `"unknown"` sentinel. -/
theorem c9 (raws : List RawFormat) (catalog : List Format)
    (h : buildCatalogFormats raws = .ok catalog) :
    ∀ f ∈ catalog,
      ¬ (f.is_audio_only = true ∧ f.is_video_only = true) ∧ f.id ≠ "unknown" := by
  unfold buildCatalogFormats at h
  cases hn : normalizeFormats raws with
  | error e => rw [hn] at h; cases h
  | ok fmts =>
    rw [hn] at h
    injection h with h'
    intro f hf
    rw [← h'] at hf
    rw [mem_sortFormats, List.mem_append] at hf
    rcases hf with hm | hr
    · rcases mem_createMergedFormats fmts f hm with heq | ⟨t, ht, heq⟩
      · subst heq
        refine ⟨by simp, ?_⟩
        decide
      · subst heq
        refine ⟨by simp, ?_⟩
        have : ∀ t ∈ mergeTiers, tierSelector t.1 ≠ "unknown" := by decide
        exact this t ht
    · have hfmts := normalizeFormats_ok raws fmts hn
      obtain ⟨_, hprov⟩ := dedupStep_foldl_inv raws [] [] (by simp) (by simp)
      rw [← hfmts] at hprov
      rcases hprov f hr with hnil | ⟨⟨raw, _, hfr⟩, hne⟩
      · cases hnil
      · exact ⟨normalizeFormat_flags raw f hfr, hne⟩

/-- Witness for C9: the finalized catalog of one 720p raw record. -/
theorem c9_witness :
    ¬ ((false : Bool) = true ∧ (false : Bool) = true) ∧ ("22" : String) ≠ "unknown" :=
  c9 [{ format_id := some "22", ext := some "mp4", height := some 720,
        vcodec := some "avc1", acodec := some "mp4a", filesize := some 12345678 }]
    [{ id := bestMergedSelector, quality_label := "Best Available (Merged)",
       mime_type := "video/mp4" },
     { id := tierSelector 720, quality_label := "HD (720p) (Merged)",
       mime_type := "video/mp4" },
     { id := "22", quality_label := "720p", mime_type := "video/mp4",
       filesize_bytes := some 12345678 }]
    (by decide)
    { id := "22", quality_label := "720p", mime_type := "video/mp4",
      filesize_bytes := some 12345678 }
    (by decide)

/-- C7: with a pattern-valid selector and a gate-valid URL,
`download_merged_to_file` removes the fresh temp directory and fails
(`YtdlpFailedError`, the spec's `ExtractionFailed`) on subprocess
timeout, on non-zero exit (carrying the stderr excerpt truncated to 200
characters), and on an empty output directory; otherwise it returns the
produced file's path inside the temp directory together with the temp
directory, which is left in place for the caller. -/
theorem c7 (st : Settings) (url format_id nu tempDir stderr : String)
    (files : List String) (code : Int)
    (hfmt : formatIdMatch format_id = true)
    (hurl : normalizeUrl st url = .ok nu) :
    (downloadMergedToFile st url format_id tempDir .timeout files =
      (.error (.ytdlpFailed "Download timed out (1-hour limit)"), true)) ∧
    (code ≠ 0 →
      downloadMergedToFile st url format_id tempDir (.exit code stderr) files =
        (.error (.ytdlpFailed ("Download failed: " ++ ⟨stderr.data.take 200⟩)), true)) ∧
    (code = 0 → files.filter (fun f => ! startsWithDot f) = [] →
      downloadMergedToFile st url format_id tempDir (.exit code stderr) files =
        (.error (.ytdlpFailed "Download produced no output file"), true)) ∧
    (∀ f fs, code = 0 → files.filter (fun f => ! startsWithDot f) = f :: fs →
      downloadMergedToFile st url format_id tempDir (.exit code stderr) files =
        (.ok (tempDir ++ "/" ++ f, tempDir), false)) := by
  refine ⟨?_, ?_, ?_, ?_⟩
  · simp [downloadMergedToFile, hfmt, hurl]
  · intro hc
    simp [downloadMergedToFile, hfmt, hurl, hc]
  · intro hc hempty
    simp [downloadMergedToFile, hfmt, hurl, hc, hempty]
  · intro f fs hc hcons
    simp [downloadMergedToFile, hfmt, hurl, hc, hcons]

/-- Witness for C7: a failing exit code (`1`, stderr `"boom"`) removes
the temp directory and raises the truncated diagnostic. -/
theorem c7_witness :
    downloadMergedToFile {} "https://example.com/v" "22" "/tmp/d"
        (.exit 1 "boom") ["out.mp4"] =
      (.error (.ytdlpFailed ("Download failed: " ++ ⟨("boom").data.take 200⟩)), true) :=
  (c7 {} "https://example.com/v" "22" "https://example.com/v" "/tmp/d" "boom"
    ["out.mp4"] 1 (by decide) (by decide)).2.1 (by decide)

/-- C8: with a URL that is its own normalization, `set` followed by
`get` returns the stored catalog strictly before the effective TTL has
elapsed and `none` from the moment it has; when the configured TTL or
capacity is ≤ 0 both operations are no-ops and `get` returns `none`;
and an enabled configuration's effective TTL is exactly the configured
TTL. -/
theorem c8 (st : Settings) (cache : CacheState) (now t : Rat) (u : String)
    (v : VideoInfo)
    (hu : normalizeUrl st u = .ok u) :
    (cacheEnabled st = true → t < now + cacheTtl st →
      getCachedFormats st (cacheSetFormats st cache now u v) t u = .ok (some v)) ∧
    (cacheEnabled st = true → now + cacheTtl st ≤ t →
      getCachedFormats st (cacheSetFormats st cache now u v) t u = .ok none) ∧
    (cacheEnabled st = false →
      cacheSetFormats st cache now u v = cache ∧
      getCachedFormats st cache t u = .ok none) ∧
    (cacheEnabled st = true →
      cacheTtl st = ((st.YTDLP_FORMATS_CACHE_TTL_SECONDS : Int) : Rat)) := by
  have hfind_app : ∀ (l : List (String × VideoInfo × Rat)),
      (∀ e ∈ l, ¬ (e.1 = u)) →
      (l ++ [(u, v, now + cacheTtl st)]).find? (fun e => e.1 = u) =
        some (u, v, now + cacheTtl st) := by
    intro l hl
    induction l with
    | nil => simp
    | cons e es ih =>
      rw [List.cons_append, List.find?_cons_of_neg, ih]
      · intro e' he'
        exact hl e' (List.mem_cons_of_mem _ he')
      · simpa using hl e (List.mem_cons_self _ _)
  have hset : ∃ l, cacheSetRaw (cacheMaxsize st) (cacheTtl st) now u v cache.entries =
      l ++ [(u, v, now + cacheTtl st)] ∧ ∀ e ∈ l, ¬ (e.1 = u) := by
    unfold cacheSetRaw
    set purged := ((cache.entries.filter (fun e => now < e.2.2)).filter
      (fun e => e.1 ≠ u)) with hpurged
    have hpu : ∀ e ∈ purged, ¬ (e.1 = u) := by
      intro e he
      have := List.of_mem_filter he
      simpa using this
    have hms : 1 ≤ cacheMaxsize st := by
      unfold cacheMaxsize
      omega
    by_cases hcap :
        cacheMaxsize st < (purged ++ [(u, v, now + cacheTtl st)]).length
    · rw [if_pos hcap]
      refine ⟨purged.drop
        ((purged ++ [(u, v, now + cacheTtl st)]).length - cacheMaxsize st), ?_, ?_⟩
      · rw [List.drop_append_of_le_length]
        simp only [List.length_append, List.length_cons, List.length_nil]
        omega
      · intro e he
        exact hpu e (List.mem_of_mem_drop he)
    · rw [if_neg hcap]
      exact ⟨purged, rfl, hpu⟩
  obtain ⟨l, hl, hlk⟩ := hset
  have hget : cacheGetRaw t u
      (cacheSetRaw (cacheMaxsize st) (cacheTtl st) now u v cache.entries) =
      if t < now + cacheTtl st then some v else none := by
    rw [hl]
    unfold cacheGetRaw
    rw [hfind_app l hlk]
  refine ⟨?_, ?_, ?_, ?_⟩
  · intro hen hlt
    have hrun : getCachedFormats st (cacheSetFormats st cache now u v) t u =
        .ok (cacheGetRaw t u
          (cacheSetRaw (cacheMaxsize st) (cacheTtl st) now u v cache.entries)) := by
      simp [getCachedFormats, cacheSetFormats, hu, hen]
    rw [hrun, hget, if_pos hlt]
  · intro hen hge
    have hrun : getCachedFormats st (cacheSetFormats st cache now u v) t u =
        .ok (cacheGetRaw t u
          (cacheSetRaw (cacheMaxsize st) (cacheTtl st) now u v cache.entries)) := by
      simp [getCachedFormats, cacheSetFormats, hu, hen]
    rw [hrun, hget, if_neg (not_lt.mpr hge)]
  · intro hdis
    constructor
    · simp [cacheSetFormats, hdis]
    · simp [getCachedFormats, hu, hdis]
  · intro hen
    unfold cacheTtl
    congr 1
    simp only [cacheEnabled, Bool.and_eq_true, decide_eq_true_eq] at hen
    omega

/-- Witness for C8: with the default configuration (TTL 600), a value
stored at time 0 is readable at time 599 via the round trip. -/
theorem c8_witness :
    getCachedFormats {}
        (cacheSetFormats {} ⟨[]⟩ 0 "https://example.com/v"
          { title := "T", formats := [{ id := "22", quality_label := "720p",
                                        mime_type := "video/mp4" }] })
        599 "https://example.com/v" =
      .ok (some { title := "T", formats := [{ id := "22", quality_label := "720p",
                                              mime_type := "video/mp4" }] }) :=
  (c8 {} ⟨[]⟩ 0 599 "https://example.com/v"
    { title := "T", formats := [{ id := "22", quality_label := "720p",
                                  mime_type := "video/mp4" }] }
    (by decide)).1 (by decide) (by norm_num [cacheTtl])

/-- C3: on a percentage line (not a destination or merger marker) with
raw value in [0,100], the reader sets progress to the rescaled value:
stream index ≤ 0 of a two-stream request to `raw*0.65 ∈ [0,65]`, stream
index ≥ 1 to `65 + raw*0.25 ∈ [65,90]`, a single stream to
`raw*0.90 ∈ [0,90]`, always capped at 91; a merger marker line sets
`status="merging"`, `phase="merge"`, `progress=92` and clears speed and
eta; and whenever a total-size token is parsed on the line,
`downloaded_bytes = int(total_bytes * progress / 100)` with the updated
`total_bytes`. -/
theorem c3 (isTwoStream : Bool) (idx : Int) (task : DownloadTask)
    (line : String) (run : List Char) (raw : Rat)
    (hne : pyStrip line ≠ "")
    (hdest : searchDest (pyStrip line).data = false)
    (hmerge : pyContains (pyStrip line) "[Merger]" = false)
    (hpct : searchPct (pyStrip line).data = some run)
    (hraw : parseFloat run = some raw)
    (h0 : 0 ≤ raw) (h100 : raw ≤ 100) :
    (∃ t', processLine isTwoStream (idx, task) line = .ok (idx, t') ∧
      t'.progress = pctProgress isTwoStream idx raw ∧
      (isTwoStream = true → idx ≤ 0 →
        t'.progress = raw * (65 / 100) ∧ 0 ≤ t'.progress ∧ t'.progress ≤ 65) ∧
      (isTwoStream = true → 1 ≤ idx →
        t'.progress = 65 + raw * (25 / 100) ∧ 65 ≤ t'.progress ∧ t'.progress ≤ 90) ∧
      (isTwoStream = false →
        t'.progress = raw * (90 / 100) ∧ 0 ≤ t'.progress ∧ t'.progress ≤ 90) ∧
      t'.progress ≤ 91 ∧
      (∀ vc uc, searchSize (pyStrip line).data = some (vc, uc) →
        t'.downloaded_bytes = pyInt ((t'.total_bytes : Rat) * t'.progress / 100))) ∧
    (∀ mline, pyStrip mline ≠ "" → searchDest (pyStrip mline).data = false →
      pyContains (pyStrip mline) "[Merger]" = true →
      processLine isTwoStream (idx, task) mline =
        .ok (idx,
          { task with
              status := "merging"
              phase := "merge"
              progress := 92
              speed := ""
              eta := "" })) := by
  have hscaled : pctProgress isTwoStream idx raw ≤ 91 := min_le_right _ _
  have hcases :
      (isTwoStream = true → idx ≤ 0 →
        pctProgress isTwoStream idx raw = raw * (65 / 100) ∧
          0 ≤ pctProgress isTwoStream idx raw ∧ pctProgress isTwoStream idx raw ≤ 65) ∧
      (isTwoStream = true → 1 ≤ idx →
        pctProgress isTwoStream idx raw = 65 + raw * (25 / 100) ∧
          65 ≤ pctProgress isTwoStream idx raw ∧ pctProgress isTwoStream idx raw ≤ 90) ∧
      (isTwoStream = false →
        pctProgress isTwoStream idx raw = raw * (90 / 100) ∧
          0 ≤ pctProgress isTwoStream idx raw ∧ pctProgress isTwoStream idx raw ≤ 90) := by
    refine ⟨?_, ?_, ?_⟩
    · intro htwo hidx
      subst htwo
      have hle : raw * (65 / 100) ≤ 91 := by linarith
      unfold pctProgress
      rw [if_pos rfl, if_pos hidx, min_eq_left hle]
      refine ⟨rfl, by positivity, by linarith⟩
    · intro htwo hidx
      subst htwo
      have hnidx : ¬ idx ≤ 0 := by omega
      have hle : 65 + raw * (25 / 100) ≤ 91 := by linarith
      unfold pctProgress
      rw [if_pos rfl, if_neg hnidx, min_eq_left hle]
      refine ⟨rfl, by linarith, by linarith⟩
    · intro hone
      subst hone
      have hle : raw * (90 / 100) ≤ 91 := by linarith
      unfold pctProgress
      rw [if_neg (by simp), min_eq_left hle]
      refine ⟨rfl, by positivity, by linarith⟩
  constructor
  · simp only [processLine, hne, hdest, hmerge, hpct, hraw, if_neg hne,
      Bool.false_eq_true, if_false, reduceIte]
    rcases hsz : searchSize (pyStrip line).data with _ | ⟨vc, uc⟩ <;>
      rcases hsp : searchSpeed (pyStrip line).data with _ | spd <;>
      rcases het : searchEta (pyStrip line).data with _ | eta <;>
      dsimp only <;>
      refine ⟨_, rfl, ?_⟩ <;>
      repeat' split
    all_goals refine ⟨rfl, hcases.1, hcases.2.1, hcases.2.2, hscaled, ?_⟩
    all_goals intro vc' uc' hsz'
    all_goals cases hsz' <;> rfl
  · intro mline hne' hdest' hmerge'
    simp only [processLine, hne', hdest', hmerge', if_neg hne',
      Bool.false_eq_true, if_false, reduceIte]
    rfl

/-- Witness for C3: the two-stream reader at stream index 1 maps the
line `"[download]  50.0% of 1.00MiB at 1.0MiB/s ETA 00:12"` to overall
progress `65 + 50*0.25 = 77.5` and recomputes `downloaded_bytes`. -/
theorem c3_witness :
    ∃ t', processLine true (1, createTask "t")
        "[download]  50.0% of 1.00MiB at 1.0MiB/s ETA 00:12" = .ok (1, t') ∧
      t'.progress = pctProgress true 1 50 ∧
      (true = true → (1 : Int) ≤ 0 →
        t'.progress = 50 * (65 / 100) ∧ 0 ≤ t'.progress ∧ t'.progress ≤ 65) ∧
      (true = true → (1 : Int) ≤ 1 →
        t'.progress = 65 + 50 * (25 / 100) ∧ 65 ≤ t'.progress ∧ t'.progress ≤ 90) ∧
      (true = false →
        t'.progress = 50 * (90 / 100) ∧ 0 ≤ t'.progress ∧ t'.progress ≤ 90) ∧
      t'.progress ≤ 91 ∧
      (∀ vc uc, searchSize (pyStrip
          "[download]  50.0% of 1.00MiB at 1.0MiB/s ETA 00:12").data =
          some (vc, uc) →
        t'.downloaded_bytes = pyInt ((t'.total_bytes : Rat) * t'.progress / 100)) :=
  (c3 true 1 (createTask "t") "[download]  50.0% of 1.00MiB at 1.0MiB/s ETA 00:12"
    ['5', '0', '.', '0'] 50 (by decide) (by decide) (by decide) (by decide)
    (by simp [parseFloat, digitsVal]) (by norm_num) (by norm_num)).1

/-- The reader loop only ever changes `status` to `"merging"`. -/
lemma processLine_ok_status (isTwoStream : Bool) (st : Int × DownloadTask)
    (line : String) (st' : Int × DownloadTask)
    (h : processLine isTwoStream st line = .ok st') :
    st'.2.status = st.2.status ∨ st'.2.status = "merging" := by
  simp only [processLine] at h
  repeat' split at h
  all_goals first
    | (injection h with h'; subst h'; simp)
    | (cases h)

/-- States reached by the reader keep status in
`{"downloading", "merging"}`, and consecutive states either keep the
status or step `downloading → merging`. -/
lemma readerTrace_props (isTwoStream : Bool) :
    ∀ (lines : List String) (st : Int × DownloadTask),
      (st.2.status = "downloading" ∨ st.2.status = "merging") →
      (∀ s ∈ readerTrace isTwoStream lines st,
        s.2.status = "downloading" ∨ s.2.status = "merging") ∧
      List.Chain' (fun a b : Int × DownloadTask =>
          a.2.status = b.2.status ∨
            (a.2.status = "downloading" ∧ b.2.status = "merging"))
        (st :: readerTrace isTwoStream lines st) := by
  intro lines
  induction lines with
  | nil =>
    intro st hst
    exact ⟨by simp [readerTrace], by simp [readerTrace]⟩
  | cons line rest ih =>
    intro st hst
    cases hpl : processLine isTwoStream st line with
    | error e =>
      constructor
      · intro s hs
        rw [readerTrace, hpl] at hs
        cases hs
      · rw [readerTrace, hpl]
        simp
    | ok st' =>
      have hst' : st'.2.status = "downloading" ∨ st'.2.status = "merging" := by
        rcases processLine_ok_status isTwoStream st line st' hpl with heq | hm
        · rw [heq]
          exact hst
        · exact Or.inr hm
      obtain ⟨hmem, hchain⟩ := ih st' hst'
      have htr : readerTrace isTwoStream (line :: rest) st =
          st' :: readerTrace isTwoStream rest st' := by
        rw [readerTrace, hpl]
      rw [htr]
      refine ⟨?_, ?_⟩
      · intro s hs
        rcases List.mem_cons.mp hs with h1 | h2
        · rw [h1]
          exact hst'
        · exact hmem s h2
      · rw [List.chain'_cons]
        refine ⟨?_, hchain⟩
        rcases processLine_ok_status isTwoStream st line st' hpl with heq | hm
        · exact Or.inl heq.symm
        · rcases hst with hd | hmg
          · exact Or.inr ⟨hd, hm⟩
          · exact Or.inl (by rw [hm, hmg])

/-- The last state of the reader, projected to the task. -/
lemma getLastD_map_snd (T : List (Int × DownloadTask)) (p : Int × DownloadTask) :
    (T.map (fun s => s.2)).getLastD p.2 = (T.getLastD p).2 := by
  induction T generalizing p with
  | nil => rfl
  | cons a T ih =>
    rw [List.map_cons, List.getLastD_cons, List.getLastD_cons, ih a]

/-- Assembling the full task-state trace from its segments: the
pending start, the `downloading` switch, the reader states, and the
final `failed`/`completed` state satisfies the amended lifecycle. -/
lemma c4_assembly (task t1 final : DownloadTask)
    (T : List (Int × DownloadTask)) (p : Int × DownloadTask)
    (hp : p.2 = t1)
    (hpend : task.status = "pending")
    (ht1 : t1.status = "downloading")
    (hprops : (∀ s ∈ T, s.2.status = "downloading" ∨ s.2.status = "merging") ∧
      List.Chain' (fun a b : Int × DownloadTask =>
        a.2.status = b.2.status ∨
          (a.2.status = "downloading" ∧ b.2.status = "merging")) (p :: T))
    (hfin : final.status = "failed" ∨
      (final.status = "completed" ∧ final.progress = 100)) :
    ((task :: t1 :: T.map (fun s => s.2) ++ [final]).head? = some task) ∧
    List.Chain' (fun a b : DownloadTask =>
        a.status = b.status ∨ allowedTransition a.status b.status)
      (task :: t1 :: T.map (fun s => s.2) ++ [final]) ∧
    (∀ s ∈ task :: t1 :: T.map (fun s => s.2) ++ [final],
      s.status = "completed" → s.progress = 100) ∧
    (∀ s ∈ (task :: t1 :: T.map (fun s => s.2) ++ [final]).dropLast,
      s.status ≠ "completed") := by
  obtain ⟨hmem, hchain⟩ := hprops
  have hmem' : ∀ x ∈ t1 :: T.map (fun s => s.2),
      x.status = "downloading" ∨ x.status = "merging" := by
    intro x hx
    rcases List.mem_cons.mp hx with h1 | h2
    · rw [h1]
      exact Or.inl ht1
    · rcases List.mem_map.mp h2 with ⟨s, hs, hsx⟩
      rw [← hsx]
      exact hmem s hs
  have hfinR : ∀ x : DownloadTask, (x.status = "downloading" ∨ x.status = "merging") →
      (x.status = final.status ∨ allowedTransition x.status final.status) := by
    intro x hx
    right
    rcases hfin with hf | ⟨hc, _⟩
    · rcases hx with hd | hm
      · exact Or.inr (Or.inr (Or.inr (Or.inr (Or.inl ⟨hd, hf⟩))))
      · exact Or.inr (Or.inr (Or.inr (Or.inr (Or.inr (Or.inr ⟨hm, hf⟩)))))
    · rcases hx with hd | hm
      · exact Or.inr (Or.inr (Or.inr (Or.inl ⟨hd, hc⟩)))
      · exact Or.inr (Or.inr (Or.inr (Or.inr (Or.inr (Or.inl ⟨hm, hc⟩)))))
  have hc : List.Chain' (fun a b : DownloadTask =>
      a.status = b.status ∨ allowedTransition a.status b.status)
      ((p :: T).map (fun s => s.2)) := by
    refine List.chain'_map_of_chain' _ ?_ hchain
    intro a b hab
    rcases hab with h1 | h2
    · exact Or.inl h1
    · exact Or.inr (Or.inr (Or.inr (Or.inl h2)))
  rw [List.map_cons, hp] at hc
  refine ⟨rfl, ?_, ?_, ?_⟩
  · rw [List.chain'_append]
    refine ⟨?_, List.chain'_singleton _, ?_⟩
    · rw [List.chain'_cons]
      exact ⟨Or.inr (Or.inl ⟨hpend, ht1⟩), hc⟩
    · intro x hx y hy
      rw [List.getLast?_cons_cons] at hx
      have hx' : x ∈ t1 :: T.map (fun s => s.2) := List.mem_of_mem_getLast? hx
      have hy' : y = final := by
        have := hy
        simp at this
        exact this.symm
      rw [hy']
      exact hfinR x (hmem' x hx')
  · intro s hs hc
    rcases List.mem_cons.mp hs with h1 | hs2
    · rw [h1, hpend] at hc
      exact absurd hc (by decide)
    · rcases List.mem_append.mp hs2 with h2 | h3
      · rcases hmem' s h2 with hd | hm
        · rw [hd] at hc
          exact absurd hc (by decide)
        · rw [hm] at hc
          exact absurd hc (by decide)
      · rw [List.mem_singleton.mp h3]
        rcases hfin with hf | ⟨_, h100⟩
        · rw [List.mem_singleton.mp h3, hf] at hc
          exact absurd hc (by decide)
        · exact h100
  · intro s hs
    rw [List.dropLast_concat] at hs
    rcases List.mem_cons.mp hs with h1 | h2
    · rw [h1, hpend]
      decide
    · rcases hmem' s h2 with hd | hm
      · rw [hd]
        decide
      · rw [hm]
        decide

/-- The final task state is `failed`, or `completed` with progress 100. -/
lemma finalizeProgressTask_props (last : DownloadTask) (tempDir : String)
    (outcome : RunOutcome) (files : List String) (outSize : Int) :
    (finalizeProgressTask last tempDir outcome files outSize).status = "failed" ∨
    ((finalizeProgressTask last tempDir outcome files outSize).status = "completed" ∧
      (finalizeProgressTask last tempDir outcome files outSize).progress = 100) := by
  unfold finalizeProgressTask
  rcases outcome with _ | ⟨code, stderr⟩
  · exact Or.inl rfl
  · dsimp only
    by_cases hc : code ≠ 0
    · rw [if_pos hc]
      exact Or.inl rfl
    · rw [if_neg hc]
      cases files.filter (fun f => ¬ startsWithDot f) with
      | nil => exact Or.inl rfl
      | cons f fs => exact Or.inr ⟨rfl, rfl⟩

/-- `pctProgress` is monotone in the raw value for a fixed stream. -/
lemma pctProgress_mono (b : Bool) (i : Int) (r r' : Rat) (hle : r' ≤ r) :
    pctProgress b i r' ≤ pctProgress b i r := by
  unfold pctProgress
  cases b with
  | false =>
    simp only [Bool.false_eq_true, if_false]
    exact min_le_min (by linarith) le_rfl
  | true =>
    simp only [if_true]
    by_cases hi : i ≤ 0
    · rw [if_pos hi, if_pos hi]
      exact min_le_min (by linarith) le_rfl
    · rw [if_neg hi, if_neg hi]
      exact min_le_min (by linarith) le_rfl

/-- A nonnegative raw value rescales to a nonnegative progress. -/
lemma pctProgress_nonneg (b : Bool) (i : Int) (r : Rat) (h0 : 0 ≤ r) :
    0 ≤ pctProgress b i r := by
  unfold pctProgress
  refine le_min ?_ (by norm_num)
  cases b with
  | false =>
    simp only [Bool.false_eq_true, if_false]
    exact mul_nonneg h0 (by norm_num)
  | true =>
    simp only [if_true]
    by_cases hi : i ≤ 0
    · rw [if_pos hi]
      exact mul_nonneg h0 (by norm_num)
    · rw [if_neg hi]
      have := mul_nonneg h0 (show (0 : Rat) ≤ 25 / 100 by norm_num)
      linarith

/-- Stream-0 values of a two-stream request never exceed 65. -/
lemma pctProgress_le_65 (i : Int) (r : Rat) (hi : i ≤ 0) (h100 : r ≤ 100) :
    pctProgress true i r ≤ 65 := by
  unfold pctProgress
  simp only [if_true]
  rw [if_pos hi]
  calc min (r * (65 / 100)) 91 ≤ r * (65 / 100) := min_le_left _ _
    _ ≤ 65 := by linarith

/-- Stream-≥1 values of a two-stream request are at least 65. -/
lemma le_65_pctProgress (i : Int) (r : Rat) (hi : ¬ i ≤ 0) (h0 : 0 ≤ r) :
    65 ≤ pctProgress true i r := by
  unfold pctProgress
  simp only [if_true]
  rw [if_neg hi]
  refine le_min ?_ (by norm_num)
  have := mul_nonneg h0 (show (0 : Rat) ≤ 25 / 100 by norm_num)
  linarith

/-- The stream index only matters to `pctProgress` through the scaling
regime it selects. -/
lemma pctProgress_idx_congr (b : Bool) (i j : Int) (r : Rat)
    (h : b = false ∨ (i ≤ 0 ↔ j ≤ 0)) :
    pctProgress b i r = pctProgress b j r := by
  cases b with
  | false => rfl
  | true =>
    rcases h with hb | hiff
    · cases hb
    · unfold pctProgress
      simp only [if_true]
      by_cases hi : i ≤ 0
      · rw [if_pos hi, if_pos (hiff.mp hi)]
      · rw [if_neg hi, if_neg (fun hh => hi (hiff.mpr hh))]

/-- Any progress value allowed by the invariant is at most 92. -/
lemma readerInv_le_92 (isTwoStream : Bool) (idx : Int) (task : DownloadTask)
    (lastRaw : Option Rat) (sm : Bool)
    (hinv : readerInv isTwoStream idx task lastRaw sm) :
    task.progress ≤ 92 := by
  cases sm with
  | true =>
    have h : task.progress = 92 := hinv
    exact le_of_eq h
  | false =>
    cases lastRaw with
    | none =>
      have h : task.progress ≤
          (if isTwoStream = true ∧ 1 ≤ idx then (65 : Rat) else 0) := hinv
      refine le_trans h ?_
      split <;> norm_num
    | some r0 =>
      have h : 0 ≤ r0 ∧ r0 ≤ 100 ∧
          task.progress = pctProgress isTwoStream idx r0 := hinv
      rw [h.2.2]
      exact le_trans (min_le_right _ _) (by norm_num)

/-- A blank line leaves the reader state unchanged. -/
lemma processLine_empty (isTwoStream : Bool) (st : Int × DownloadTask)
    (line : String) (h : pyStrip line = "") :
    processLine isTwoStream st line = .ok st := by
  show processLine isTwoStream st line = pure st
  simp [processLine, h]

/-- A destination marker advances the stream index and leaves progress
and status unchanged. -/
lemma processLine_dest (isTwoStream : Bool) (idx : Int) (task : DownloadTask)
    (line : String) (hne : pyStrip line ≠ "")
    (hdest : searchDest (pyStrip line).data = true) :
    ∃ t', processLine isTwoStream (idx, task) line = .ok (idx + 1, t') ∧
      t'.progress = task.progress ∧ t'.status = task.status := by
  cases isTwoStream with
  | false =>
    have h : processLine false (idx, task) line =
        .ok (idx + 1, { task with speed := "", eta := "" }) := by
      simp only [processLine, hne, hdest, if_neg hne, Bool.false_eq_true,
        if_false, reduceIte]
      rfl
    exact ⟨_, h, rfl, rfl⟩
  | true =>
    have h : processLine true (idx, task) line =
        .ok (idx + 1,
          { { task with phase := if idx + 1 = 0 then "video" else "audio" } with
              speed := ""
              eta := "" }) := by
      simp only [processLine, hne, hdest, if_neg hne, Bool.false_eq_true,
        if_false, reduceIte]
      rfl
    exact ⟨_, h, rfl, rfl⟩

/-- A merger marker moves the task to `merging` at progress 92. -/
lemma processLine_merger (isTwoStream : Bool) (idx : Int) (task : DownloadTask)
    (line : String) (hne : pyStrip line ≠ "")
    (hdest : searchDest (pyStrip line).data = false)
    (hmerge : pyContains (pyStrip line) "[Merger]" = true) :
    processLine isTwoStream (idx, task) line =
      .ok (idx,
        { task with
            status := "merging"
            phase := "merge"
            progress := 92
            speed := ""
            eta := "" }) := by
  simp only [processLine, hne, hdest, hmerge, if_neg hne, Bool.false_eq_true,
    if_false, reduceIte]
  rfl

/-- A line with no percentage token leaves the reader state unchanged. -/
lemma processLine_noPct (isTwoStream : Bool) (st : Int × DownloadTask)
    (line : String) (hne : pyStrip line ≠ "")
    (hdest : searchDest (pyStrip line).data = false)
    (hmerge : pyContains (pyStrip line) "[Merger]" = false)
    (hpct : searchPct (pyStrip line).data = none) :
    processLine isTwoStream st line = .ok st := by
  show processLine isTwoStream st line = pure st
  simp only [processLine, hne, hdest, hmerge, hpct, if_neg hne,
    Bool.false_eq_true, if_false, reduceIte]

/-- A percentage line whose raw value parses keeps the stream index and
status while rescaling the progress. -/
lemma processLine_pct (isTwoStream : Bool) (idx : Int) (task : DownloadTask)
    (line : String) (run : List Char) (raw : Rat)
    (hne : pyStrip line ≠ "")
    (hdest : searchDest (pyStrip line).data = false)
    (hmerge : pyContains (pyStrip line) "[Merger]" = false)
    (hpct : searchPct (pyStrip line).data = some run)
    (hraw : parseFloat run = some raw) :
    ∃ t', processLine isTwoStream (idx, task) line = .ok (idx, t') ∧
      t'.progress = pctProgress isTwoStream idx raw ∧
      t'.status = task.status := by
  simp only [processLine, hne, hdest, hmerge, hpct, hraw, if_neg hne,
    Bool.false_eq_true, if_false, reduceIte]
  rcases hsz : searchSize (pyStrip line).data with _ | ⟨vc, uc⟩ <;>
    rcases hsp : searchSpeed (pyStrip line).data with _ | spd <;>
    rcases het : searchEta (pyStrip line).data with _ | eta <;>
    dsimp only <;>
    refine ⟨_, rfl, ?_⟩ <;>
    repeat' split
  all_goals exact ⟨rfl, rfl⟩

/-- A percentage line whose raw value fails to parse stops the reader. -/
lemma processLine_pct_err (isTwoStream : Bool) (st : Int × DownloadTask)
    (line : String) (run : List Char)
    (hne : pyStrip line ≠ "")
    (hdest : searchDest (pyStrip line).data = false)
    (hmerge : pyContains (pyStrip line) "[Merger]" = false)
    (hpct : searchPct (pyStrip line).data = some run)
    (hraw : parseFloat run = none) :
    processLine isTwoStream st line = .error () := by
  simp only [processLine, hne, hdest, hmerge, hpct, hraw, if_neg hne,
    Bool.false_eq_true, if_false, reduceIte]

/-- Under the proviso, the reader's progress never decreases from one
state to the next. -/
lemma readerTrace_mono (isTwoStream : Bool) :
    ∀ (lines : List String) (st : Int × DownloadTask)
      (lastRaw : Option Rat) (sm : Bool),
      readerInv isTwoStream st.1 st.2 lastRaw sm →
      linesMonotone isTwoStream lines st.1 lastRaw sm = true →
      List.Chain' (fun a b : Int × DownloadTask => a.2.progress ≤ b.2.progress)
        (st :: readerTrace isTwoStream lines st) := by
  intro lines
  induction lines with
  | nil =>
    intro st lastRaw sm _ _
    simp [readerTrace]
  | cons line rest ih =>
    intro st lastRaw sm hinv0 hmono
    obtain ⟨idx, task⟩ := st
    have hinv : readerInv isTwoStream idx task lastRaw sm := hinv0
    by_cases hemp : pyStrip line = ""
    · have hpl := processLine_empty isTwoStream (idx, task) line hemp
      have htr : readerTrace isTwoStream (line :: rest) (idx, task) =
          (idx, task) :: readerTrace isTwoStream rest (idx, task) := by
        rw [readerTrace, hpl]
      have hmono' : linesMonotone isTwoStream rest idx lastRaw sm = true := by
        simpa [linesMonotone, hemp] using hmono
      rw [htr, List.chain'_cons]
      exact ⟨le_rfl, ih (idx, task) lastRaw sm hinv hmono'⟩
    · by_cases hdst : searchDest (pyStrip line).data = true
      · obtain ⟨t', hpl, hprog, _⟩ :=
          processLine_dest isTwoStream idx task line hemp hdst
        have htr : readerTrace isTwoStream (line :: rest) (idx, task) =
            (idx + 1, t') :: readerTrace isTwoStream rest (idx + 1, t') := by
          rw [readerTrace, hpl]
        have hmono' : linesMonotone isTwoStream rest (idx + 1)
            (if isTwoStream = true ∧ idx = 0 then none else lastRaw) sm =
              true := by
          simpa [linesMonotone, hemp, hdst] using hmono
        have hinv' : readerInv isTwoStream (idx + 1) t'
            (if isTwoStream = true ∧ idx = 0 then none else lastRaw) sm := by
          cases sm with
          | true =>
            show t'.progress = 92
            rw [hprog]
            exact hinv
          | false =>
            by_cases hcross : isTwoStream = true ∧ idx = 0
            · rw [if_pos hcross]
              show t'.progress ≤
                (if isTwoStream = true ∧ 1 ≤ idx + 1 then (65 : Rat) else 0)
              rw [if_pos ⟨hcross.1, by omega⟩, hprog]
              cases lastRaw with
              | none =>
                have h : task.progress ≤
                    (if isTwoStream = true ∧ 1 ≤ idx then (65 : Rat) else 0) :=
                  hinv
                rw [if_neg (fun hh => by omega)] at h
                linarith
              | some r0 =>
                have h : 0 ≤ r0 ∧ r0 ≤ 100 ∧
                    task.progress = pctProgress isTwoStream idx r0 := hinv
                rw [h.2.2, hcross.1]
                exact pctProgress_le_65 idx r0 (by omega) h.2.1
            · rw [if_neg hcross]
              cases lastRaw with
              | none =>
                show t'.progress ≤
                  (if isTwoStream = true ∧ 1 ≤ idx + 1 then (65 : Rat) else 0)
                have h : task.progress ≤
                    (if isTwoStream = true ∧ 1 ≤ idx then (65 : Rat) else 0) :=
                  hinv
                rw [hprog]
                by_cases htwo : isTwoStream = true
                · by_cases hidx : 1 ≤ idx
                  · rw [if_pos ⟨htwo, hidx⟩] at h
                    rw [if_pos ⟨htwo, by omega⟩]
                    exact h
                  · have hne0 : idx ≠ 0 := fun hh => hcross ⟨htwo, hh⟩
                    rw [if_neg (fun hh => hidx hh.2)] at h
                    rw [if_neg (fun hh => by omega)]
                    exact h
                · rw [if_neg (fun hh => htwo hh.1)] at h
                  rw [if_neg (fun hh => htwo hh.1)]
                  exact h
              | some r0 =>
                have h : 0 ≤ r0 ∧ r0 ≤ 100 ∧
                    task.progress = pctProgress isTwoStream idx r0 := hinv
                refine ⟨h.1, h.2.1, ?_⟩
                rw [hprog, h.2.2]
                refine pctProgress_idx_congr isTwoStream idx (idx + 1) r0 ?_
                by_cases htwo : isTwoStream = true
                · have hne0 : idx ≠ 0 := fun hh => hcross ⟨htwo, hh⟩
                  right
                  omega
                · rw [Bool.not_eq_true] at htwo
                  exact Or.inl htwo
        rw [htr, List.chain'_cons]
        refine ⟨by rw [hprog], ih (idx + 1, t') _ sm hinv' hmono'⟩
      · rw [Bool.not_eq_true] at hdst
        by_cases hmrg : pyContains (pyStrip line) "[Merger]" = true
        · have hpl := processLine_merger isTwoStream idx task line hemp hdst hmrg
          have htr : readerTrace isTwoStream (line :: rest) (idx, task) =
              (idx,
                { task with
                    status := "merging"
                    phase := "merge"
                    progress := 92
                    speed := ""
                    eta := "" }) ::
                readerTrace isTwoStream rest
                  (idx,
                    { task with
                        status := "merging"
                        phase := "merge"
                        progress := 92
                        speed := ""
                        eta := "" }) := by
            rw [readerTrace, hpl]
          have hmono' : linesMonotone isTwoStream rest idx lastRaw true =
              true := by
            simpa [linesMonotone, hemp, hdst, hmrg] using hmono
          have hinv' : readerInv isTwoStream idx
              { task with
                  status := "merging"
                  phase := "merge"
                  progress := 92
                  speed := ""
                  eta := "" }
              lastRaw true := rfl
          rw [htr, List.chain'_cons]
          exact ⟨readerInv_le_92 isTwoStream idx task lastRaw sm hinv,
            ih (idx, _) lastRaw true hinv' hmono'⟩
        · rw [Bool.not_eq_true] at hmrg
          cases hpc : searchPct (pyStrip line).data with
          | none =>
            have hpl := processLine_noPct isTwoStream (idx, task) line hemp
              hdst hmrg hpc
            have htr : readerTrace isTwoStream (line :: rest) (idx, task) =
                (idx, task) :: readerTrace isTwoStream rest (idx, task) := by
              rw [readerTrace, hpl]
            have hmono' : linesMonotone isTwoStream rest idx lastRaw sm =
                true := by
              simpa [linesMonotone, hemp, hdst, hmrg, hpc] using hmono
            rw [htr, List.chain'_cons]
            exact ⟨le_rfl, ih (idx, task) lastRaw sm hinv hmono'⟩
          | some run =>
            cases hrw : parseFloat run with
            | none =>
              have hpl := processLine_pct_err isTwoStream (idx, task) line run
                hemp hdst hmrg hpc hrw
              have htr : readerTrace isTwoStream (line :: rest) (idx, task) =
                  [] := by
                rw [readerTrace, hpl]
              rw [htr]
              simp
            | some raw =>
              obtain ⟨t', hpl, hprog, _⟩ := processLine_pct isTwoStream idx
                task line run raw hemp hdst hmrg hpc hrw
              have htr : readerTrace isTwoStream (line :: rest) (idx, task) =
                  (idx, t') :: readerTrace isTwoStream rest (idx, t') := by
                rw [readerTrace, hpl]
              cases lastRaw with
              | none =>
                have hm' := hmono
                simp [linesMonotone, hemp, hdst, hmrg, hpc, hrw] at hm'
                obtain ⟨⟨⟨hsm, h0⟩, h100⟩, hrest⟩ := hm'
                subst hsm
                have h : task.progress ≤
                    (if isTwoStream = true ∧ 1 ≤ idx then (65 : Rat) else 0) :=
                  hinv
                have hinv' : readerInv isTwoStream idx t' (some raw) false :=
                  ⟨h0, h100, hprog⟩
                rw [htr, List.chain'_cons]
                refine ⟨?_, ih (idx, t') (some raw) false hinv' hrest⟩
                rw [hprog]
                by_cases hb : isTwoStream = true ∧ 1 ≤ idx
                · rw [if_pos hb] at h
                  rw [hb.1]
                  have := le_65_pctProgress idx raw (by omega) h0
                  linarith
                · rw [if_neg hb] at h
                  have := pctProgress_nonneg isTwoStream idx raw h0
                  linarith
              | some r0 =>
                have hm' := hmono
                simp [linesMonotone, hemp, hdst, hmrg, hpc, hrw] at hm'
                obtain ⟨⟨⟨⟨hsm, h0⟩, h100⟩, hler⟩, hrest⟩ := hm'
                subst hsm
                have h : 0 ≤ r0 ∧ r0 ≤ 100 ∧
                    task.progress = pctProgress isTwoStream idx r0 := hinv
                have hinv' : readerInv isTwoStream idx t' (some raw) false :=
                  ⟨h0, h100, hprog⟩
                rw [htr, List.chain'_cons]
                refine ⟨?_, ih (idx, t') (some raw) false hinv' hrest⟩
                rw [hprog, h.2.2]
                exact pctProgress_mono isTwoStream idx raw r0 hler

/-- The full-trace progress chain for a validated run: any adjacent
pair of trace states sharing a status has non-decreasing progress. -/
lemma trace_progress_chain (task t1 final : DownloadTask)
    (T : List (Int × DownloadTask)) (p : Int × DownloadTask)
    (hp : p.2 = t1)
    (hpend : task.status = "pending")
    (ht1s : t1.status = "downloading")
    (hmem : ∀ s ∈ T, s.2.status = "downloading" ∨ s.2.status = "merging")
    (hchain : List.Chain' (fun a b : Int × DownloadTask =>
        a.2.progress ≤ b.2.progress) (p :: T))
    (hfin : final.status = "failed" ∨
      (final.status = "completed" ∧ final.progress = 100)) :
    List.Chain' (fun a b : DownloadTask =>
        a.status = b.status → a.progress ≤ b.progress)
      (task :: t1 :: T.map (fun s => s.2) ++ [final]) := by
  have hmem' : ∀ x ∈ t1 :: T.map (fun s => s.2),
      x.status = "downloading" ∨ x.status = "merging" := by
    intro x hx
    rcases List.mem_cons.mp hx with h1 | h2
    · rw [h1]
      exact Or.inl ht1s
    · rcases List.mem_map.mp h2 with ⟨s, hs, hsx⟩
      rw [← hsx]
      exact hmem s hs
  have hc0 : List.Chain' (fun a b : DownloadTask => a.progress ≤ b.progress)
      ((p :: T).map (fun s => s.2)) := by
    refine List.chain'_map_of_chain' _ ?_ hchain
    intro a b hab
    exact hab
  rw [List.map_cons, hp] at hc0
  have hc1 : List.Chain' (fun a b : DownloadTask =>
      a.status = b.status → a.progress ≤ b.progress)
      (t1 :: T.map (fun s => s.2)) :=
    hc0.imp (fun a b hab => fun _ => hab)
  rw [List.chain'_append]
  refine ⟨?_, List.chain'_singleton _, ?_⟩
  · rw [List.chain'_cons]
    refine ⟨?_, hc1⟩
    intro heq
    rw [hpend, ht1s] at heq
    exact absurd heq (by decide)
  · intro x hx y hy
    rw [List.getLast?_cons_cons] at hx
    have hx' : x ∈ t1 :: T.map (fun s => s.2) := List.mem_of_mem_getLast? hx
    have hy' : y = final := by
      have := hy
      simp at this
      exact this.symm
    rw [hy']
    intro heq
    exfalso
    rcases hmem' x hx' with hs | hs <;> rcases hfin with hf | ⟨hf, _⟩ <;>
      rw [hs, hf] at heq <;> exact absurd heq (by decide)

/-- C4 (amended): over the sequentialised execution model of
`download_merged_with_progress`, a task that starts `pending` moves
only along `pending→downloading`, `pending→failed` (invalid selector),
`downloading→merging`, `downloading→completed`, `downloading→failed`,
`merging→completed`, `merging→failed`; a `completed` state is only ever
the final state of the trace; whenever status is `completed`, progress
equals `100.0`; the progress rescaling is monotone — non-decreasing
in the raw percentage for a fixed stream, stream-0 values never exceed
stream-≥1 values, and every rescaled value is capped at 91; and for a
task starting at progress 0, progress never decreases while the status
stays the same, provided raw percentages do not decrease within a
scaling regime (lines before the second destination marker of a
two-stream request count as one regime) and no percentage line follows
the merge marker. -/
theorem c4_amended (st : Settings) (url format_id : String)
    (task : DownloadTask) (lines : List String) (tempDir : String)
    (outcome : RunOutcome) (files : List String) (outSize : Int)
    (hpend : task.status = "pending") :
    ((downloadMergedWithProgressTrace st url format_id task lines tempDir
        outcome files outSize).head? = some task) ∧
    List.Chain' (fun a b : DownloadTask =>
        a.status = b.status ∨ allowedTransition a.status b.status)
      (downloadMergedWithProgressTrace st url format_id task lines tempDir
        outcome files outSize) ∧
    (∀ s ∈ downloadMergedWithProgressTrace st url format_id task lines tempDir
        outcome files outSize, s.status = "completed" → s.progress = 100) ∧
    (∀ s ∈ (downloadMergedWithProgressTrace st url format_id task lines tempDir
        outcome files outSize).dropLast, s.status ≠ "completed") ∧
    (∀ (b : Bool) (i : Int) (r r' : Rat), r' ≤ r →
      pctProgress b i r' ≤ pctProgress b i r) ∧
    (∀ (i i' : Int) (r r' : Rat), i ≤ 0 → 1 ≤ i' → r ≤ 100 → 0 ≤ r' →
      pctProgress true i r ≤ pctProgress true i' r') ∧
    (∀ (b : Bool) (i : Int) (r : Rat), pctProgress b i r ≤ 91) ∧
    (task.progress = 0 →
      linesMonotone (pyContains format_id "+") lines (-1) none false = true →
      List.Chain' (fun a b : DownloadTask =>
          a.status = b.status → a.progress ≤ b.progress)
        (downloadMergedWithProgressTrace st url format_id task lines tempDir
          outcome files outSize)) := by
  have harith_mono : ∀ (b : Bool) (i : Int) (r r' : Rat), r' ≤ r →
      pctProgress b i r' ≤ pctProgress b i r := by
    intro b i r r' hle
    unfold pctProgress
    cases b with
    | false =>
      simp only [Bool.false_eq_true, if_false]
      exact min_le_min (by linarith) le_rfl
    | true =>
      simp only [if_true]
      by_cases hi : i ≤ 0
      · rw [if_pos hi, if_pos hi]
        exact min_le_min (by linarith) le_rfl
      · rw [if_neg hi, if_neg hi]
        exact min_le_min (by linarith) le_rfl
  have harith_cross : ∀ (i i' : Int) (r r' : Rat), i ≤ 0 → 1 ≤ i' →
      r ≤ 100 → 0 ≤ r' → pctProgress true i r ≤ pctProgress true i' r' := by
    intro i i' r r' hi hi' hr hr'
    unfold pctProgress
    simp only [if_true]
    rw [if_pos hi, if_neg (by omega : ¬ i' ≤ 0)]
    apply le_min
    · calc min (r * (65 / 100)) 91 ≤ r * (65 / 100) := min_le_left _ _
        _ ≤ 65 + r' * (25 / 100) := by linarith
    · exact min_le_right _ _
  have hcap : ∀ (b : Bool) (i : Int) (r : Rat), pctProgress b i r ≤ 91 :=
    fun b i r => min_le_right _ _
  by_cases hfmt : formatIdMatch format_id = true
  · cases hnu : normalizeUrl st url with
    | error e =>
      have htr : downloadMergedWithProgressTrace st url format_id task lines
          tempDir outcome files outSize = [task] := by
        simp [downloadMergedWithProgressTrace, hfmt, hnu]
      rw [htr]
      refine ⟨rfl, by simp, ?_, by simp, harith_mono, harith_cross, hcap,
        fun _ _ => List.chain'_singleton _⟩
      intro s hs hc
      rw [List.mem_singleton] at hs
      rw [hs, hpend] at hc
      exact absurd hc (by decide)
    | ok nu =>
      set t1 : DownloadTask := { task with
        status := "downloading"
        phase := if pyContains format_id "+" then "video" else "" } with ht1
      have hred : downloadMergedWithProgressTrace st url format_id task lines
          tempDir outcome files outSize =
          task :: t1 :: (readerTrace (pyContains format_id "+") lines
              ((-1 : Int), t1)).map (fun s => s.2) ++
            [finalizeProgressTask
              (((readerTrace (pyContains format_id "+") lines
                ((-1 : Int), t1)).getLastD ((-1 : Int), t1)).2)
              tempDir outcome files outSize] := by
        rw [ht1]
        simp [downloadMergedWithProgressTrace, hfmt, hnu]
      rw [hred]
      have hA := c4_assembly task t1
        (finalizeProgressTask
          (((readerTrace (pyContains format_id "+") lines
            ((-1 : Int), t1)).getLastD ((-1 : Int), t1)).2)
          tempDir outcome files outSize)
        (readerTrace (pyContains format_id "+") lines ((-1 : Int), t1))
        ((-1 : Int), t1)
        rfl hpend (by rw [ht1])
        (readerTrace_props (pyContains format_id "+") lines ((-1 : Int), t1)
          (Or.inl (by rw [ht1])))
        (finalizeProgressTask_props _ _ _ _ _)
      refine ⟨hA.1, hA.2.1, hA.2.2.1, hA.2.2.2, harith_mono, harith_cross,
        hcap, ?_⟩
      intro hp0 hlm
      have hp1 : t1.progress = 0 := by
        rw [ht1]
        exact hp0
      have hinv0 : readerInv (pyContains format_id "+") (-1) t1 none false := by
        show t1.progress ≤
          (if pyContains format_id "+" = true ∧ (1 : Int) ≤ -1 then (65 : Rat)
           else 0)
        rw [if_neg (fun hh => absurd hh.2 (by decide)), hp1]
      have hchainT := readerTrace_mono (pyContains format_id "+") lines
        ((-1 : Int), t1) none false hinv0 hlm
      exact trace_progress_chain task t1 _
        (readerTrace (pyContains format_id "+") lines ((-1 : Int), t1))
        ((-1 : Int), t1) rfl hpend (by rw [ht1])
        (readerTrace_props (pyContains format_id "+") lines ((-1 : Int), t1)
          (Or.inl (by rw [ht1]))).1
        hchainT (finalizeProgressTask_props _ _ _ _ _)
  · rw [Bool.not_eq_true] at hfmt
    have htr : downloadMergedWithProgressTrace st url format_id task lines
        tempDir outcome files outSize =
        [task,
         { task with status := "failed", error := some "Invalid format_id" }] := by
      simp [downloadMergedWithProgressTrace, hfmt]
    rw [htr]
    refine ⟨rfl, ?_, ?_, ?_, harith_mono, harith_cross, hcap, ?_⟩
    · rw [List.chain'_cons]
      exact ⟨Or.inr (Or.inr (Or.inl ⟨hpend, rfl⟩)), List.chain'_singleton _⟩
    · intro s hs hc
      rcases List.mem_cons.mp hs with h1 | h2
      · rw [h1, hpend] at hc
        exact absurd hc (by decide)
      · rw [List.mem_singleton.mp h2] at hc
        simp at hc
    · intro s hs
      rw [show ([task,
            { task with status := "failed", error := some "Invalid format_id" }] :
          List DownloadTask).dropLast = [task] by rfl] at hs
      rw [List.mem_singleton.mp hs, hpend]
      decide
    · intro _ _
      rw [List.chain'_cons]
      refine ⟨?_, List.chain'_singleton _⟩
      intro heq
      exact absurd (hpend.symm.trans heq) (by simp)

/-- Witness for C4 (amended): a two-stream run ending in exit 0 with an
output file starts its trace at the pending task, and its single
destination line satisfies the monotonicity proviso, so equal-status
neighbours never lose progress. -/
theorem c4_amended_witness :
    ((downloadMergedWithProgressTrace {} "https://example.com/v" "18+140"
        (createTask "t") ["[download] Destination: a"] "/tmp/d" (.exit 0 "")
        ["o.mp4"] 9).head? = some (createTask "t")) ∧
    List.Chain' (fun a b : DownloadTask =>
        a.status = b.status → a.progress ≤ b.progress)
      (downloadMergedWithProgressTrace {} "https://example.com/v" "18+140"
        (createTask "t") ["[download] Destination: a"] "/tmp/d" (.exit 0 "")
        ["o.mp4"] 9) :=
  ⟨(c4_amended {} "https://example.com/v" "18+140" (createTask "t")
      ["[download] Destination: a"] "/tmp/d" (.exit 0 "") ["o.mp4"] 9 rfl).1,
   (c4_amended {} "https://example.com/v" "18+140" (createTask "t")
      ["[download] Destination: a"] "/tmp/d" (.exit 0 "") ["o.mp4"] 9
      rfl).2.2.2.2.2.2.2 rfl (by decide)⟩

/-- C4 as stated is false: in the single-stream execution with
percentage lines 50.0 then 30.0 and a successful exit, the status trace
is pending, downloading, downloading, downloading, completed — the
transition downloading→completed is not in the claimed set (which only
reaches completed through merging) — and progress goes 0, 0, 45, 27,
100: it decreases from 45 to 27 while the status stays "downloading". -/
theorem c4_counterexample :
    (downloadMergedWithProgressTrace {} "https://example.com/v" "22"
        (createTask "t") ["[download]  50.0%", "[download]  30.0%"] "/tmp/d"
        (.exit 0 "") ["o.mp4"] 9).map DownloadTask.status =
      ["pending", "downloading", "downloading", "downloading", "completed"] ∧
    (downloadMergedWithProgressTrace {} "https://example.com/v" "22"
        (createTask "t") ["[download]  50.0%", "[download]  30.0%"] "/tmp/d"
        (.exit 0 "") ["o.mp4"] 9).map DownloadTask.progress =
      [0, 0, 45, 27, 100] := by
  have e8 : pctProgress false (-1) 50 = 45 := by
    unfold pctProgress
    simp only [Bool.false_eq_true, if_false]
    rw [min_eq_left (by norm_num)]
    norm_num
  have e8' : pctProgress false (-1) 30 = 27 := by
    unfold pctProgress
    simp only [Bool.false_eq_true, if_false]
    rw [min_eq_left (by norm_num)]
    norm_num
  have hp1 : ∀ t : DownloadTask, processLine false ((-1 : Int), t)
      "[download]  50.0%" = .ok ((-1 : Int), { t with progress := 45 }) := by
    intro t
    simp only [processLine,
      show pyStrip "[download]  50.0%" = "[download]  50.0%" from by decide,
      show searchDest ("[download]  50.0%").data = false from by decide,
      show pyContains "[download]  50.0%" "[Merger]" = false from by decide,
      show searchPct ("[download]  50.0%").data = some ['5', '0', '.', '0']
        from by decide,
      show parseFloat ['5', '0', '.', '0'] = some 50 from by
        simp [parseFloat, digitsVal],
      show searchSize ("[download]  50.0%").data = none from by decide,
      show searchSpeed ("[download]  50.0%").data = none from by decide,
      show searchEta ("[download]  50.0%").data = none from by decide,
      e8]
    rfl
  have hp2 : ∀ t : DownloadTask, processLine false ((-1 : Int), t)
      "[download]  30.0%" = .ok ((-1 : Int), { t with progress := 27 }) := by
    intro t
    simp only [processLine,
      show pyStrip "[download]  30.0%" = "[download]  30.0%" from by decide,
      show searchDest ("[download]  30.0%").data = false from by decide,
      show pyContains "[download]  30.0%" "[Merger]" = false from by decide,
      show searchPct ("[download]  30.0%").data = some ['3', '0', '.', '0']
        from by decide,
      show parseFloat ['3', '0', '.', '0'] = some 30 from by
        simp [parseFloat, digitsVal],
      show searchSize ("[download]  30.0%").data = none from by decide,
      show searchSpeed ("[download]  30.0%").data = none from by decide,
      show searchEta ("[download]  30.0%").data = none from by decide,
      e8']
    rfl
  have hT : ∀ t : DownloadTask,
      readerTrace false ["[download]  50.0%", "[download]  30.0%"]
        ((-1 : Int), t) =
      [((-1 : Int), { t with progress := 45 }),
       ((-1 : Int), { t with progress := 27 })] := by
    intro t
    simp only [readerTrace, hp1, hp2]
  constructor <;>
    simp +decide [downloadMergedWithProgressTrace, hT, finalizeProgressTask,
      show normalizeUrl {} "https://example.com/v" = .ok "https://example.com/v"
        from by decide,
      show pyContains "22" "+" = false from by decide]

end YtDlp
